import Mathlib

/-!
# devGenVar: generic-variable device support

A shallow embedding of `devGenVar.c` / `devGenVar.h`.

* Pointers to `DevGenVarRec` are integers counted in units of one
  `DevGenVarRec`, so that `h->gv + card` is integer addition; the slot
  records live in `World.gvMem`, the cells `data_p` points to in `World.mem`.
* Raw values are bit patterns (`Nat`); the 32-bit fields `rval`, `mask`,
  `rbv` are reduced `% 2^32` where the C code computes on them.
* Services of EPICS base (converter tables, `dbNameToAddr`, the heap, the
  status codes and type constants of its headers) are fields of `Host`;
  every call of a host routine that has an effect outside the model is
  appended to `World.trace`.
* A dereference of a null pointer (`prec->dpvt`, `dbaddr.pfield`) has no
  defined result: the functions that dereference return `Option`.
-/

namespace DevGenVar

/-! ## Constants of devGenVar.c -/

/-- The macro `REG_TBL_SZ_DEFAULT` (512). -/
def REG_TBL_SZ_DEFAULT : Nat := 512

/-- The macro `FLG_NCONV`, `(1<<0)`. -/
def FLG_NCONV : Nat := 1 <<< 0

/-- The macro `FLG_NCSUP`, `(1<<1)`. -/
def FLG_NCSUP : Nat := 1 <<< 1

/-- Conversion of a C integer to `unsigned short`. -/
def toUShort (x : Int) : Nat := (x % 65536).toNat

/-- Reduction to an `epicsUInt32`. -/
def toUInt32 (x : Nat) : Nat := x % 4294967296

/-- The C expression `~x` on an `epicsUInt32`. -/
def not32 (x : Nat) : Nat := (x % 4294967296) ^^^ 4294967295

/-! ## Data model -/

/-- Alarm status codes of `alarm.h` used by this module. -/
inductive AlarmStat
  | READ_ALARM
  | WRITE_ALARM
  deriving DecidableEq

/-- Alarm severities of `alarm.h` used by this module. -/
inductive AlarmSevr
  | MAJOR_ALARM
  | INVALID_ALARM
  deriving DecidableEq

/-- The `type` of a `DBLINK`: `VME_IO` or any other link kind. -/
inductive LinkType
  | VME_IO_LINK
  | OTHER_LINK (code : Int)
  deriving DecidableEq

/-- The record field a `dbAddr.pfield` points to. -/
inductive FieldRef
  | VAL
  | RVAL
  | RBV
  | MASK
  | OTHER (k : Nat)
  deriving DecidableEq

/-- The part of `struct dbAddr` that the module reads. -/
structure dbAddr where
  pfield : Option FieldRef
  field_type : Int
  deriving DecidableEq

/-- The slot `struct DevGenVarRec_` (devGenVar.h). -/
structure DevGenVarRec where
  scan_p : Option Nat
  mtx : Option Nat
  evt : Option Nat
  data_p : Nat
  dbr_t : Nat
  deriving DecidableEq

/-- The `struct DevGenVarPvtRec_`: the binding hung on `prec->dpvt`. -/
structure DevGenVarPvtRec where
  gv : Int
  flags : Nat
  dbaddr : dbAddr
  deriving DecidableEq

/-- The `struct RegHeadRec_`: a registered slot array and its length. -/
structure RegHeadRec where
  gv : Int
  n_entries : Int
  deriving DecidableEq

/-- The part of `dbRecordType` used to find a field descriptor's name. -/
structure dbRecordType where
  no_fields : Int
  pvalFldDes : String
  papFldDes : Nat → String

/-- The fields of a record that the module touches: those of `dbCommon`
and the value fields of the record types it supports. -/
structure dbRecord where
  name : String
  pact : Bool
  udf : Bool
  pini : Nat
  dpvt : Option DevGenVarPvtRec
  rdes : dbRecordType
  val : Nat
  rval : Nat
  rbv : Nat
  mask : Nat
  other : Nat → Nat

/-- Read of the field `pfield` points to. -/
def dbRecord.getField (r : dbRecord) : FieldRef → Nat
  | .VAL => r.val
  | .RVAL => r.rval
  | .RBV => r.rbv
  | .MASK => r.mask
  | .OTHER k => r.other k

/-- Write of the field `pfield` points to. -/
def dbRecord.setField (r : dbRecord) (f : FieldRef) (v : Nat) : dbRecord :=
  match f with
  | .VAL => { r with val := v }
  | .RVAL => { r with rval := v }
  | .RBV => { r with rbv := v }
  | .MASK => { r with mask := v }
  | .OTHER k => { r with other := fun j => if j = k then v else r.other j }

/-- The `struct vmeio`: `card` and `signal` are `short`, `parm` may be null. -/
structure vmeio where
  card : Int
  signal : Int
  parm : Option String

/-- A `DBLINK`: its type and the `value.vmeio` member of the union. -/
structure DBLINK where
  type : LinkType
  value : vmeio

/-- A `GPHENTRY` of the EPICS general-purpose hash table. -/
structure GPHENTRY where
  name : String
  pvtid : Nat
  userPvt : Option RegHeadRec
  deriving DecidableEq

/-- The hash table `devGenVarRegistry` points to: its own address, its
size and its entries in insertion order. -/
structure gphPvt where
  addr : Nat
  size : Nat
  entries : List GPHENTRY
  deriving DecidableEq

/-- Calls of host routines whose effect lies outside the model. -/
inductive HostCall
  | errlogPrintf (msg : String)
  | recGblRecordError (status : Int) (msg : String)
  | recGblSetSevr (stat : AlarmStat) (sevr : AlarmSevr)
  | recGblResetAlarms
  | epicsMutexMustLock (mtx : Nat)
  | epicsMutexUnlock (mtx : Nat)
  | epicsEventSignal (evt : Nat)
  | dbFastPutConvert (dbr_t dbf_t : Nat)
  | dbFastGetConvert (dbf_t dbr_t : Nat)
  | free
  deriving DecidableEq

/-- What EPICS base supplies: the constants of its headers, the two
converter tables, `dbNameToAddr`, `gphInitPvt` and the heap. A converter
takes the source value, the old destination value and the `dbAddr`, and
returns its status and the new destination value. `mallocOk k` tells
whether the `k`-th allocation request of the process succeeds. -/
structure Host where
  DBR_ENUM : Nat
  DBF_DEVICE : Nat
  S_dev_badBus : Int
  S_dev_noDeviceFound : Int
  S_dev_badCard : Int
  S_db_noMemory : Int
  S_db_errArg : Int
  S_db_notFound : Int
  dbFastPutConvertRoutine : Nat → Nat → Nat → Nat → dbAddr → Int × Nat
  dbFastGetConvertRoutine : Nat → Nat → Nat → Nat → dbAddr → Int × Nat
  dbNameToAddr : String → Int × dbAddr
  gphInitPvt : Nat → Option Nat
  mallocOk : Nat → Bool

/-- The state of the process: the two globals of devGenVar.c, the memory
holding slot records and data cells, the number of allocation requests
made so far, and the host calls made so far. -/
structure World where
  devGenVarRegistry : Option gphPvt
  regTblSz : Nat
  gvMem : Int → DevGenVarRec
  mem : Nat → Nat
  nalloc : Nat
  trace : List HostCall

/-- Status, state and record after a call. -/
structure Ret where
  status : Int
  w : World
  prec : dbRecord

/-- Append one host call to the trace. -/
def World.log (w : World) (c : HostCall) : World :=
  { w with trace := w.trace ++ [c] }

/-- A call of `malloc` or `calloc`: one more allocation request has been made. -/
def World.alloc (w : World) : World :=
  { w with nalloc := w.nalloc + 1 }

/-- Store into the cell `data_p` points to. -/
def World.store (w : World) (a : Nat) (v : Nat) : World :=
  { w with mem := fun b => if b = a then v else w.mem b }

/-! ## The registry -/

/-- Modelled from the spec: `gphFind` of EPICS base (gpHash.c is not part
of this repository). "find(name): returns the entry for name, or the
not-found sentinel"; a null table has no entries. -/
def gphFind (t : Option gphPvt) (name : String) (pvtid : Nat) : Option GPHENTRY :=
  match t with
  | none => none
  | some tbl => tbl.entries.find? (fun e => decide (e.pvtid = pvtid ∧ e.name = name))

/-- Modelled from the spec: `gphAdd` of EPICS base (gpHash.c is not part
of this repository). It "inserts a new entry" with a null `userPvt`, and
fails (null) when there is no table, when "the underlying table rejects
the key" because it is present (what EPICS base does), or when its node
cannot be allocated. -/
def gphAdd (host : Host) (w : World) (name : String) (pvtid : Nat) : Option World :=
  match w.devGenVarRegistry with
  | none => none
  | some tbl =>
    if (gphFind (some tbl) name pvtid).isSome then none
    else if !host.mallocOk w.nalloc then none
    else
      let he : GPHENTRY := { name := name, pvtid := pvtid, userPvt := none }
      let tbl1 : gphPvt := { tbl with entries := tbl.entries ++ [he] }
      some { w.alloc with devGenVarRegistry := some tbl1 }

/-- The assignment `he->userPvt = h` on the entry `gphAdd` returned. -/
def setUserPvt (tbl : gphPvt) (name : String) (pvtid : Nat) (h : RegHeadRec) : gphPvt :=
  { tbl with entries := tbl.entries.map (fun e =>
      if e.pvtid = pvtid ∧ e.name = name then { e with userPvt := some h } else e) }

/-- The value of the pointer `devGenVarRegistry` (0 when null). -/
def registryPtr (w : World) : Nat :=
  match w.devGenVarRegistry with
  | none => 0
  | some tbl => tbl.addr

/-- Embedding of `devGenVarConfig`. -/
def devGenVarConfig (w : World) (tblSz : Nat) : Int × World :=
  if w.devGenVarRegistry.isSome then ((w.regTblSz : Int), w)
  else (0, { w with regTblSz := tblSz })

/-- Embedding of `devGenVarInitDevSup`; `none` when `cantProceed` stops the process. -/
def devGenVarInitDevSup (host : Host) (w : World) (_pass : Int) : Option (Int × World) :=
  if w.devGenVarRegistry.isSome then some (0, w)
  else
    let sz := if w.regTblSz = 0 then REG_TBL_SZ_DEFAULT else w.regTblSz
    match host.gphInitPvt sz with
    | none => none
    | some a =>
      let tbl : gphPvt := { addr := a, size := sz, entries := [] }
      some (0, { w with regTblSz := sz, devGenVarRegistry := some tbl })

/-- Embedding of `devGenVarRegister`. -/
def devGenVarRegister (host : Host) (w : World) (registryEntry : String) (gv : Int)
    (n_entries : Int) : Int × World :=
  if !host.mallocOk w.nalloc then
    (-1, w.alloc.log (.errlogPrintf "devGenVarRegister: no memory"))
  else
    let w1 := w.alloc
    let h : RegHeadRec := { gv := gv, n_entries := n_entries }
    match gphAdd host w1 registryEntry (registryPtr w1) with
    | none =>
      (-1, (w1.log (.errlogPrintf "devGenVarRegister: Unable to add entry")).log .free)
    | some w2 =>
      let reg := w2.devGenVarRegistry.map (fun tbl => setUserPvt tbl registryEntry (registryPtr w1) h)
      (0, { w2 with devGenVarRegistry := reg })

/-- Embedding of `findEntry`. -/
def findEntry (w : World) (name : Option String) : Option RegHeadRec :=
  match name with
  | none => none
  | some nm =>
    match gphFind w.devGenVarRegistry nm (registryPtr w) with
    | none => none
    | some he => he.userPvt

/-! ## Access operations -/

/-- Embedding of `devGenVarLock` (devGenVar.h). -/
def devGenVarLock (w : World) (gv : DevGenVarRec) : World :=
  match gv.mtx with
  | none => w
  | some m => w.log (.epicsMutexMustLock m)

/-- Embedding of `devGenVarUnlock` (devGenVar.h). -/
def devGenVarUnlock (w : World) (gv : DevGenVarRec) : World :=
  match gv.mtx with
  | none => w
  | some m => w.log (.epicsMutexUnlock m)

/-- Embedding of `devGenVarGet_nolock`. -/
def devGenVarGet_nolock (host : Host) (w : World) (prec : dbRecord) : Option Ret :=
  match prec.dpvt with
  | none => none
  | some p =>
    let gv := w.gvMem p.gv
    let dbf_t := toUShort p.dbaddr.field_type
    let dbr_t := toUShort gv.dbr_t
    if dbf_t > host.DBF_DEVICE ∨ dbr_t > host.DBR_ENUM then
      some { status := -1, w := w, prec := prec }
    else
      match p.dbaddr.pfield with
      | none => none
      | some f =>
        let c := host.dbFastPutConvertRoutine dbr_t dbf_t (w.mem gv.data_p) (prec.getField f) p.dbaddr
        let w1 := w.log (.dbFastPutConvert dbr_t dbf_t)
        let prec1 := prec.setField f c.2
        if c.1 ≠ 0 then
          some { status := c.1, w := w1.log (.recGblSetSevr .READ_ALARM .INVALID_ALARM), prec := prec1 }
        else if p.flags &&& FLG_NCONV ≠ 0 then
          some { status := 2, w := w1, prec := { prec1 with udf := false } }
        else
          some { status := c.1, w := w1, prec := prec1 }

/-- Embedding of `devGenVarReadback_nolock`. -/
def devGenVarReadback_nolock (host : Host) (w : World) (prec : dbRecord) : Option Ret :=
  match prec.dpvt with
  | none => none
  | some p =>
    let gv := w.gvMem p.gv
    let dbf_t := toUShort p.dbaddr.field_type
    let dbr_t := toUShort gv.dbr_t
    if dbf_t > host.DBF_DEVICE ∨ dbr_t > host.DBR_ENUM then
      some { status := -1, w := w, prec := prec }
    else
      match p.dbaddr.pfield with
      | none => none
      | some f =>
        let c := host.dbFastPutConvertRoutine dbr_t dbf_t (w.mem gv.data_p) (prec.getField f) p.dbaddr
        let w1 := w.log (.dbFastPutConvert dbr_t dbf_t)
        let prec1 := prec.setField f c.2
        if c.1 ≠ 0 then
          let w2 := w1.log (.recGblRecordError c.1 "Unable to read current value back")
          some { status := c.1, w := w2.log (.recGblSetSevr .READ_ALARM .MAJOR_ALARM), prec := prec1 }
        else
          some { status := c.1, w := w1, prec := prec1 }

/-- Embedding of `devGenVarGet`. -/
def devGenVarGet (host : Host) (w : World) (prec : dbRecord) : Option Ret :=
  match prec.dpvt with
  | none => none
  | some p =>
    let gv := w.gvMem p.gv
    match gv.mtx with
    | none => devGenVarGet_nolock host w prec
    | some m =>
      match devGenVarGet_nolock host (w.log (.epicsMutexMustLock m)) prec with
      | none => none
      | some r => some { r with w := r.w.log (.epicsMutexUnlock m) }

/-- Embedding of `devGenVarPut_nolock`. -/
def devGenVarPut_nolock (host : Host) (w : World) (prec : dbRecord) : Option Ret :=
  match prec.dpvt with
  | none => none
  | some p =>
    let gv := w.gvMem p.gv
    let dbf_t := toUShort p.dbaddr.field_type
    let dbr_t := toUShort gv.dbr_t
    if dbf_t > host.DBF_DEVICE ∨ dbr_t > host.DBR_ENUM then
      some { status := -1, w := w, prec := prec }
    else
      match p.dbaddr.pfield with
      | none => none
      | some f =>
        let c := host.dbFastGetConvertRoutine dbf_t dbr_t (prec.getField f) (w.mem gv.data_p) p.dbaddr
        let w1 := (w.log (.dbFastGetConvert dbf_t dbr_t)).store gv.data_p c.2
        if c.1 ≠ 0 then
          some { status := c.1, w := w1.log (.recGblSetSevr .WRITE_ALARM .INVALID_ALARM), prec := prec }
        else
          match gv.evt with
          | some e => some { status := c.1, w := w1.log (.epicsEventSignal e), prec := prec }
          | none => some { status := c.1, w := w1, prec := prec }

/-- Embedding of `devGenVarPut`. -/
def devGenVarPut (host : Host) (w : World) (prec : dbRecord) : Option Ret :=
  match prec.dpvt with
  | none => none
  | some p =>
    let gv := w.gvMem p.gv
    match gv.mtx with
    | none => devGenVarPut_nolock host w prec
    | some m =>
      match devGenVarPut_nolock host (w.log (.epicsMutexMustLock m)) prec with
      | none => none
      | some r => some { r with w := r.w.log (.epicsMutexUnlock m) }

/-! ## Binding -/

/-- The label `bail` of `devGenVarInitRec`: `free(nm)` (logged when `nm`
is not null), and on a non-zero `rval` the record is set active and the
error is reported. -/
def devGenVarInitRec_bail (w : World) (prec : dbRecord) (nmAllocated : Bool) (rval : Int) : Ret :=
  let w1 := if nmAllocated then w.log .free else w
  if rval ≠ 0 then
    { status := rval,
      w := w1.log (.recGblRecordError rval "devGenVarInitRec failed"),
      prec := { prec with pact := true } }
  else
    { status := rval, w := w1, prec := prec }

/-- Embedding of `devGenVarInitRec`. -/
def devGenVarInitRec (host : Host) (w : World) (l : DBLINK) (prec : dbRecord)
    (fldOff rawFldOff : Int) : Ret :=
  if l.type ≠ LinkType.VME_IO_LINK then
    devGenVarInitRec_bail (w.log (.errlogPrintf "devGenVarInitRec: link must be of type VME_IO"))
      prec false host.S_dev_badBus
  else
    match findEntry w l.value.parm with
    | none =>
      devGenVarInitRec_bail (w.log (.errlogPrintf "devGenVarInitRec: no registry entry found"))
        prec false host.S_dev_noDeviceFound
    | some h =>
      if l.value.card ≥ h.n_entries then
        devGenVarInitRec_bail (w.log (.errlogPrintf "devGenVarInitRec: invalid card #"))
          prec false host.S_dev_badCard
      else if !host.mallocOk w.nalloc then
        devGenVarInitRec_bail (w.alloc.log (.errlogPrintf "devGenVarInitRec: no memory for DPVT"))
          prec false host.S_db_noMemory
      else
        let w1 := w.alloc
        let flags0 : Nat := 0
        let flags1 : Nat := if rawFldOff ≥ 0 then flags0 ||| FLG_NCSUP else flags0
        let flags : Nat :=
          if rawFldOff ≥ 0 ∧ l.value.signal ≠ 0 then flags1 ||| FLG_NCONV else flags1
        let fldOff1 : Int := if rawFldOff ≥ 0 ∧ l.value.signal ≠ 0 then rawFldOff else fldOff
        let p : DevGenVarPvtRec :=
          { gv := h.gv + l.value.card, flags := flags, dbaddr := { pfield := none, field_type := 0 } }
        let prec1 : dbRecord := { prec with dpvt := some p }
        if fldOff1 ≥ prec1.rdes.no_fields then
          devGenVarInitRec_bail (w1.log (.errlogPrintf "devGenVarInitRec: fldOff out of range"))
            prec1 false host.S_db_errArg
        else
          let fldD : String :=
            if fldOff1 < 0 then prec1.rdes.pvalFldDes else prec1.rdes.papFldDes fldOff1.toNat
          if !host.mallocOk w1.nalloc then
            devGenVarInitRec_bail (w1.alloc.log (.errlogPrintf "devGenVarInitRec: no memory"))
              prec1 false host.S_db_noMemory
          else
            let w2 := w1.alloc
            let nm : String := prec1.name ++ "." ++ fldD
            let a := host.dbNameToAddr nm
            let prec2 : dbRecord := { prec1 with dpvt := some { p with dbaddr := a.2 } }
            if a.1 ≠ 0 then
              devGenVarInitRec_bail (w2.log (.errlogPrintf "devGenVarInitRec: dbNameToAddr() failure"))
                prec2 true host.S_db_notFound
            else
              devGenVarInitRec_bail w2 prec2 true 0

/-- Embedding of `devGenVarInitInpRec`. -/
def devGenVarInitInpRec (host : Host) (w : World) (l : DBLINK) (prec : dbRecord)
    (fldOff rawFldOff : Int) : Ret :=
  devGenVarInitRec host w l prec fldOff rawFldOff

/-- Embedding of `devGenVarInitOutRec`. -/
def devGenVarInitOutRec (host : Host) (w : World) (l : DBLINK) (prec : dbRecord)
    (fldOff rawFldOff : Int) : Option Ret :=
  let r := devGenVarInitRec host w l prec fldOff rawFldOff
  if r.status ≠ 0 then some r
  else if r.prec.pini ≠ 0 then
    match r.prec.dpvt with
    | none => none
    | some p =>
      if p.flags &&& FLG_NCSUP ≠ 0 then some { r with status := 2 } else some r
  else
    match devGenVarGet host r.w r.prec with
    | none => none
    | some g =>
      if g.status ≥ 0 then some { g with w := g.w.log .recGblResetAlarms } else some g

/-- Embedding of `init_rec_lo` (longout): both offsets are -1. -/
def init_rec_lo (host : Host) (w : World) (out : DBLINK) (prec : dbRecord) : Option Ret :=
  match devGenVarInitOutRec host w out prec (-1) (-1) with
  | none => none
  | some r =>
    if r.status ≠ 0 ∧ r.status ≠ 2 then
      some { r with w := r.w.log (.recGblRecordError r.status "devGenVar(longout): init_record failed") }
    else some r

/-! ## Masked writes -/

/-- Embedding of `write_bo`. -/
def write_bo (host : Host) (w : World) (prec : dbRecord) : Option Ret :=
  match prec.dpvt with
  | none => none
  | some p =>
    let gv := w.gvMem p.gv
    let w0 := devGenVarLock w gv
    if toUInt32 prec.mask ≠ 0 then
      let rv := toUInt32 prec.rval
      match devGenVarReadback_nolock host w0 prec with
      | none => none
      | some r =>
        if r.status ≠ 0 then
          some { r with w := devGenVarUnlock r.w gv }
        else
          let rval1 := toUInt32 r.prec.rval &&& not32 r.prec.mask
          let rval2 := rval1 ||| (rv &&& toUInt32 r.prec.mask)
          match devGenVarPut_nolock host r.w { r.prec with rval := rval2 } with
          | none => none
          | some q => some { q with w := devGenVarUnlock q.w gv }
    else
      match devGenVarPut_nolock host w0 prec with
      | none => none
      | some q => some { q with w := devGenVarUnlock q.w gv }

/-- Embedding of `read_bi`. -/
def read_bi (host : Host) (w : World) (prec : dbRecord) : Option Ret :=
  match prec.dpvt with
  | none => none
  | some p =>
    let gv := w.gvMem p.gv
    match devGenVarGet_nolock host (devGenVarLock w gv) prec with
    | none => none
    | some r =>
      let prec1 : dbRecord :=
        if r.status ≥ 0 ∧ toUInt32 r.prec.mask ≠ 0 then
          { r.prec with rval := toUInt32 r.prec.rval &&& toUInt32 r.prec.mask }
        else r.prec
      some { status := r.status, w := devGenVarUnlock r.w gv, prec := prec1 }

/-- Embedding of `read_mbbi`. -/
def read_mbbi (host : Host) (w : World) (prec : dbRecord) : Option Ret :=
  match prec.dpvt with
  | none => none
  | some p =>
    let gv := w.gvMem p.gv
    match devGenVarGet_nolock host (devGenVarLock w gv) prec with
    | none => none
    | some r =>
      let prec1 : dbRecord :=
        if r.status ≥ 0 ∧ toUInt32 r.prec.mask ≠ 0 then
          { r.prec with rval := toUInt32 r.prec.rval &&& toUInt32 r.prec.mask }
        else r.prec
      some { status := r.status, w := devGenVarUnlock r.w gv, prec := prec1 }

/-- Embedding of `write_mbbo`. -/
def write_mbbo (host : Host) (w : World) (prec : dbRecord) : Option Ret :=
  match prec.dpvt with
  | none => none
  | some p =>
    let gv := w.gvMem p.gv
    let w0 := devGenVarLock w gv
    let rv := toUInt32 prec.rval
    match devGenVarReadback_nolock host w0 prec with
    | none => none
    | some r =>
      if r.status = 0 then
        let prec1 : dbRecord := { r.prec with rbv := toUInt32 r.prec.rval }
        let rval1 := toUInt32 prec1.rval &&& not32 prec1.mask
        let rval2 := rval1 ||| (rv &&& toUInt32 prec1.mask)
        match devGenVarPut_nolock host r.w { prec1 with rval := rval2 } with
        | none => none
        | some q => some { q with w := devGenVarUnlock q.w gv }
      else
        some { r with w := devGenVarUnlock r.w gv }

/-! ## Concrete hosts, worlds and records used to instantiate the theorems -/

/-- A `dbAddr` of the field `RVAL`, of type `DBF_ULONG` (6). -/
def addrRVAL : dbAddr := { pfield := some FieldRef.RVAL, field_type := 6 }

/-- A host with the type constants of EPICS 3.14 (`DBR_ENUM` 9,
`DBF_DEVICE` 11), non-zero status codes, converters that copy the source
value and succeed, a name resolution that yields `RVAL`, and a heap that
never runs out. -/
def hostCopy : Host :=
  { DBR_ENUM := 9
    DBF_DEVICE := 11
    S_dev_badBus := 33030157
    S_dev_noDeviceFound := 33030167
    S_dev_badCard := 33030159
    S_db_noMemory := 32833602
    S_db_errArg := 32833599
    S_db_notFound := 32833537
    dbFastPutConvertRoutine := fun _ _ src _ _ => (0, src)
    dbFastGetConvertRoutine := fun _ _ src _ _ => (0, src)
    dbNameToAddr := fun _ => (0, addrRVAL)
    gphInitPvt := fun _ => some 4096
    mallocOk := fun _ => true }

/-- A slot of type `DBR_ULONG` (6) whose data cell is cell 7, with the
given mutex and event. -/
def slotULong (mtx evt : Option Nat) : DevGenVarRec :=
  { scan_p := none, mtx := mtx, evt := evt, data_p := 7, dbr_t := 6 }

/-- A world without registry in which every slot address holds
`slotULong mtx evt` and every data cell holds `v`. -/
def worldOf (mtx evt : Option Nat) (v : Nat) : World :=
  { devGenVarRegistry := none
    regTblSz := REG_TBL_SZ_DEFAULT
    gvMem := fun _ => slotULong mtx evt
    mem := fun _ => v
    nalloc := 0
    trace := [] }

/-- A record type with three fields whose default value field is `VAL`. -/
def rdes3 : dbRecordType :=
  { no_fields := 3
    pvalFldDes := "VAL"
    papFldDes := fun k => if k = 0 then "VAL" else if k = 1 then "RVAL" else "MASK" }

/-- A record "rec" with the given binding, mask, raw value and `pini`. -/
def recOf (dpvt : Option DevGenVarPvtRec) (mask rval pini : Nat) : dbRecord :=
  { name := "rec", pact := false, udf := true, pini := pini, dpvt := dpvt, rdes := rdes3
    val := 0, rval := rval, rbv := 0, mask := mask, other := fun _ => 0 }

/-- A binding of slot 0 to the field `RVAL` with the given flags. -/
def pvtRVAL (flags : Nat) : DevGenVarPvtRec :=
  { gv := 0, flags := flags, dbaddr := addrRVAL }

/-- The slot memory of genVarTestMain.cpp: `testL[0]` (`DBR_LONG`, with the
mutex `devGenVarLockCreate` made) and `testL[1]` (`DBR_ULONG`) at addresses
100 and 101, `testS[0]` (`DBR_USHORT`, with a mutex) at address 200. -/
def testGvMem (a : Int) : DevGenVarRec :=
  if a = 100 then { scan_p := some 20, mtx := some 31, evt := none, data_p := 2, dbr_t := 5 }
  else if a = 101 then { scan_p := some 20, mtx := none, evt := none, data_p := 3, dbr_t := 6 }
  else { scan_p := some 10, mtx := some 30, evt := none, data_p := 1, dbr_t := 4 }

/-- The data cells of genVarTestMain.cpp: `genTestS = 0xffff` in cell 1,
`genTestL = -1` in cell 2, `genTestL1 = -2` in cell 3. -/
def testMem (a : Nat) : Nat :=
  if a = 1 then 0xFFFF else if a = 2 then 0xFFFFFFFF else if a = 3 then 0xFFFFFFFE else 0

/-- The process state at start: no registry yet. -/
def worldStart : World :=
  { devGenVarRegistry := none
    regTblSz := REG_TBL_SZ_DEFAULT
    gvMem := testGvMem
    mem := testMem
    nalloc := 0
    trace := [] }

/-- The state after `devGenVarInitDevSup` has made the table. -/
def worldInit : World :=
  match devGenVarInitDevSup hostCopy worldStart 0 with
  | some r => r.2
  | none => worldStart

/-- The state after "testS" (1 slot) and then "testL" (2 slots) have been
registered in the initialised table, as `main` of genVarTestMain.cpp
registers them. -/
def worldTest : World :=
  (devGenVarRegister hostCopy (devGenVarRegister hostCopy worldInit "testS" 200 1).2 "testL" 100 2).2

/-- A `VME_IO` link `#C<card> S<signal> @<parm>`. -/
def vmeLink (card signal : Int) (parm : Option String) : DBLINK :=
  { type := LinkType.VME_IO_LINK, value := { card := card, signal := signal, parm := parm } }

/-- The host `hostCopy` with a heap that has run out. -/
def hostNoMem : Host := { hostCopy with mallocOk := fun _ => false }

/-- The host `hostCopy` with converters that fail with the given status
and leave the destination as it was. -/
def hostFail (status : Int) : Host :=
  { hostCopy with
    dbFastPutConvertRoutine := fun _ _ _ old _ => (status, old)
    dbFastGetConvertRoutine := fun _ _ _ old _ => (status, old) }

/-- A world in which every slot has the stored type tag `0x10005` (65541,
above every DBR type; its low 16 bits are 5, `DBR_LONG`), the event 2, no
mutex, and the data cell 7 holding 42. -/
def worldBadType : World :=
  { devGenVarRegistry := none
    regTblSz := REG_TBL_SZ_DEFAULT
    gvMem := fun _ => { scan_p := none, mtx := none, evt := some 2, data_p := 7, dbr_t := 65541 }
    mem := fun _ => 42
    nalloc := 0
    trace := [] }

/-- The status codes of the bind are EPICS error codes, none of them 0. -/
def Host.codesNonZero (host : Host) : Prop :=
  host.S_dev_badBus ≠ 0 ∧ host.S_dev_noDeviceFound ≠ 0 ∧ host.S_dev_badCard ≠ 0 ∧
  host.S_db_noMemory ≠ 0 ∧ host.S_db_errArg ≠ 0 ∧ host.S_db_notFound ≠ 0

instance (host : Host) : Decidable host.codesNonZero := by
  unfold Host.codesNonZero
  infer_instance

/-- A binding of slot 0 to the field `RVAL` whose field type 12 is above
`DBF_DEVICE`. -/
def pvtBadField : DevGenVarPvtRec :=
  { gv := 0, flags := 0, dbaddr := { pfield := some FieldRef.RVAL, field_type := 12 } }

/-! ## Lock state; the access operations as one family -/

/-- The range check of the access operations fails: the field type, or
the slot type as the code reads it, is above its bound. -/
def typesOutOfRange (host : Host) (w : World) (p : DevGenVarPvtRec) : Prop :=
  toUShort p.dbaddr.field_type > host.DBF_DEVICE ∨ toUShort (w.gvMem p.gv).dbr_t > host.DBR_ENUM

instance (host : Host) (w : World) (p : DevGenVarPvtRec) : Decidable (typesOutOfRange host w p) := by
  unfold typesOutOfRange
  infer_instance

/-- The host calls `devGenVarLock` makes on a slot with this `mtx`. -/
def lockCalls (mtx : Option Nat) : List HostCall :=
  match mtx with
  | none => []
  | some m => [HostCall.epicsMutexMustLock m]

/-- The host calls `devGenVarUnlock` makes on a slot with this `mtx`. -/
def unlockCalls (mtx : Option Nat) : List HostCall :=
  match mtx with
  | none => []
  | some m => [HostCall.epicsMutexUnlock m]

/-- Whether a host call takes or releases a mutex. -/
def HostCall.isLockCall : HostCall → Bool
  | .epicsMutexMustLock _ => true
  | .epicsMutexUnlock _ => true
  | _ => false

/-- The effect of one host call on the lock state, which gives for every
mutex the number of times it is held. -/
def lockStep (s : Nat → Nat) (c : HostCall) : Nat → Nat :=
  match c with
  | .epicsMutexMustLock m => fun k => if k = m then s k + 1 else s k
  | .epicsMutexUnlock m => fun k => if k = m then s k - 1 else s k
  | _ => s

/-- The lock state after a sequence of host calls. -/
def lockRun (s : Nat → Nat) (t : List HostCall) : Nat → Nat :=
  t.foldl lockStep s

/-- The access operations of the module. -/
inductive AccessOp
  | Get
  | Put
  | ReadBi
  | ReadMbbi
  | WriteBo
  | WriteMbbo
  deriving DecidableEq

/-- The function of devGenVar.c behind each access operation. -/
def AccessOp.run (op : AccessOp) (host : Host) (w : World) (prec : dbRecord) : Option Ret :=
  match op with
  | .Get => devGenVarGet host w prec
  | .Put => devGenVarPut host w prec
  | .ReadBi => read_bi host w prec
  | .ReadMbbi => read_mbbi host w prec
  | .WriteBo => write_bo host w prec
  | .WriteMbbo => write_mbbo host w prec

/-- Two states hold the same data: the same cells, and slots that agree in
everything but their mutex. The traces and allocation counts may differ. -/
def World.sameData (w w' : World) : Prop :=
  w.mem = w'.mem ∧
  ∀ a, (w.gvMem a).data_p = (w'.gvMem a).data_p ∧ (w.gvMem a).dbr_t = (w'.gvMem a).dbr_t ∧
    (w.gvMem a).evt = (w'.gvMem a).evt ∧ (w.gvMem a).scan_p = (w'.gvMem a).scan_p

/-- A section run between `devGenVarLock` and `devGenVarUnlock` of the
slot the binding `p` selects. -/
def bracket (p : DevGenVarPvtRec) (body : World → Option Ret) (w : World) : Option Ret :=
  match body (devGenVarLock w (w.gvMem p.gv)) with
  | none => none
  | some r => some { r with w := devGenVarUnlock r.w (w.gvMem p.gv) }

/-- What `read_bi` and `read_mbbi` do between lock and unlock. -/
def read_section (host : Host) (prec : dbRecord) (w0 : World) : Option Ret :=
  match devGenVarGet_nolock host w0 prec with
  | none => none
  | some r =>
    let prec1 : dbRecord :=
      if r.status ≥ 0 ∧ toUInt32 r.prec.mask ≠ 0 then
        { r.prec with rval := toUInt32 r.prec.rval &&& toUInt32 r.prec.mask }
      else r.prec
    some { status := r.status, w := r.w, prec := prec1 }

/-- What `write_bo` does between lock and unlock. -/
def write_bo_section (host : Host) (prec : dbRecord) (w0 : World) : Option Ret :=
  if toUInt32 prec.mask ≠ 0 then
    let rv := toUInt32 prec.rval
    match devGenVarReadback_nolock host w0 prec with
    | none => none
    | some r =>
      if r.status ≠ 0 then some r
      else
        let rval1 := toUInt32 r.prec.rval &&& not32 r.prec.mask
        let rval2 := rval1 ||| (rv &&& toUInt32 r.prec.mask)
        devGenVarPut_nolock host r.w { r.prec with rval := rval2 }
  else
    devGenVarPut_nolock host w0 prec

/-- What `write_mbbo` does between lock and unlock. -/
def write_mbbo_section (host : Host) (prec : dbRecord) (w0 : World) : Option Ret :=
  let rv := toUInt32 prec.rval
  match devGenVarReadback_nolock host w0 prec with
  | none => none
  | some r =>
    if r.status = 0 then
      let prec1 : dbRecord := { r.prec with rbv := toUInt32 r.prec.rval }
      let rval1 := toUInt32 prec1.rval &&& not32 prec1.mask
      let rval2 := rval1 ||| (rv &&& toUInt32 prec1.mask)
      devGenVarPut_nolock host r.w { prec1 with rval := rval2 }
    else some r

/-- The section of each access operation. -/
def AccessOp.body (op : AccessOp) (host : Host) (prec : dbRecord) (w0 : World) : Option Ret :=
  match op with
  | .Get => devGenVarGet_nolock host w0 prec
  | .Put => devGenVarPut_nolock host w0 prec
  | .ReadBi => read_section host prec w0
  | .ReadMbbi => read_section host prec w0
  | .WriteBo => write_bo_section host prec w0
  | .WriteMbbo => write_mbbo_section host prec w0

/-- A section is framed: from every state in which the range check fails
or the field address is not null it returns; its host calls are no lock
calls; it leaves the slot records alone; and its status, its record and
the data it leaves are the same from every state holding the same data. -/
def Framed (host : Host) (p : DevGenVarPvtRec) (body : World → Option Ret) : Prop :=
  ∀ w, (typesOutOfRange host w p ∨ p.dbaddr.pfield ≠ none) →
    ∃ r d, body w = some r ∧ r.w.trace = w.trace ++ d ∧ (∀ c ∈ d, c.isLockCall = false) ∧
      r.w.gvMem = w.gvMem ∧
      ∀ w', w.sameData w' → ∃ r', body w' = some r' ∧ r'.status = r.status ∧
        r'.prec = r.prec ∧ r.w.sameData r'.w

/-! ## Auxiliary lemmas -/

@[simp] theorem World.log_mem (w : World) (c : HostCall) : (w.log c).mem = w.mem := rfl

@[simp] theorem World.log_gvMem (w : World) (c : HostCall) : (w.log c).gvMem = w.gvMem := rfl

@[simp] theorem World.log_trace (w : World) (c : HostCall) :
    (w.log c).trace = w.trace ++ [c] := rfl

@[simp] theorem World.log_nalloc (w : World) (c : HostCall) : (w.log c).nalloc = w.nalloc := rfl

@[simp] theorem World.log_registry (w : World) (c : HostCall) :
    (w.log c).devGenVarRegistry = w.devGenVarRegistry := rfl

@[simp] theorem World.alloc_mem (w : World) : w.alloc.mem = w.mem := rfl

@[simp] theorem World.alloc_gvMem (w : World) : w.alloc.gvMem = w.gvMem := rfl

@[simp] theorem World.alloc_trace (w : World) : w.alloc.trace = w.trace := rfl

@[simp] theorem World.alloc_nalloc (w : World) : w.alloc.nalloc = w.nalloc + 1 := rfl

@[simp] theorem World.alloc_registry (w : World) :
    w.alloc.devGenVarRegistry = w.devGenVarRegistry := rfl

@[simp] theorem World.store_mem (w : World) (a v : Nat) :
    (w.store a v).mem = fun b => if b = a then v else w.mem b := rfl

@[simp] theorem World.store_gvMem (w : World) (a v : Nat) : (w.store a v).gvMem = w.gvMem := rfl

@[simp] theorem World.store_trace (w : World) (a v : Nat) : (w.store a v).trace = w.trace := rfl

@[simp] theorem devGenVarLock_mem (w : World) (gv : DevGenVarRec) :
    (devGenVarLock w gv).mem = w.mem := by
  unfold devGenVarLock; cases gv.mtx <;> rfl

@[simp] theorem devGenVarLock_gvMem (w : World) (gv : DevGenVarRec) :
    (devGenVarLock w gv).gvMem = w.gvMem := by
  unfold devGenVarLock; cases gv.mtx <;> rfl

@[simp] theorem devGenVarUnlock_mem (w : World) (gv : DevGenVarRec) :
    (devGenVarUnlock w gv).mem = w.mem := by
  unfold devGenVarUnlock; cases gv.mtx <;> rfl

@[simp] theorem devGenVarUnlock_gvMem (w : World) (gv : DevGenVarRec) :
    (devGenVarUnlock w gv).gvMem = w.gvMem := by
  unfold devGenVarUnlock; cases gv.mtx <;> rfl

@[simp] theorem devGenVarInitRec_bail_status (w : World) (prec : dbRecord) (b : Bool) (rval : Int) :
    (devGenVarInitRec_bail w prec b rval).status = rval := by
  unfold devGenVarInitRec_bail
  by_cases h : rval = 0 <;> simp [h]

@[simp] theorem devGenVarInitRec_bail_nalloc (w : World) (prec : dbRecord) (b : Bool) (rval : Int) :
    (devGenVarInitRec_bail w prec b rval).w.nalloc = w.nalloc := by
  unfold devGenVarInitRec_bail
  by_cases h : rval = 0 <;> cases b <;> simp [h]

@[simp] theorem devGenVarInitRec_bail_registry (w : World) (prec : dbRecord) (b : Bool)
    (rval : Int) :
    (devGenVarInitRec_bail w prec b rval).w.devGenVarRegistry = w.devGenVarRegistry := by
  unfold devGenVarInitRec_bail
  by_cases h : rval = 0 <;> cases b <;> simp [h]

@[simp] theorem devGenVarInitRec_bail_gvMem (w : World) (prec : dbRecord) (b : Bool)
    (rval : Int) :
    (devGenVarInitRec_bail w prec b rval).w.gvMem = w.gvMem := by
  unfold devGenVarInitRec_bail
  by_cases h : rval = 0 <;> cases b <;> simp [h]

@[simp] theorem devGenVarInitRec_bail_mem (w : World) (prec : dbRecord) (b : Bool)
    (rval : Int) :
    (devGenVarInitRec_bail w prec b rval).w.mem = w.mem := by
  unfold devGenVarInitRec_bail
  by_cases h : rval = 0 <;> cases b <;> simp [h]

@[simp] theorem devGenVarInitRec_bail_dpvt (w : World) (prec : dbRecord) (b : Bool) (rval : Int) :
    (devGenVarInitRec_bail w prec b rval).prec.dpvt = prec.dpvt := by
  unfold devGenVarInitRec_bail
  by_cases h : rval = 0 <;> simp [h]

@[simp] theorem devGenVarInitRec_bail_pini (w : World) (prec : dbRecord) (b : Bool) (rval : Int) :
    (devGenVarInitRec_bail w prec b rval).prec.pini = prec.pini := by
  unfold devGenVarInitRec_bail
  by_cases h : rval = 0 <;> simp [h]

/-- Bits of the 32-bit complement. -/
theorem not32_testBit (m i : Nat) :
    (not32 m).testBit i = (decide (i < 32) && !m.testBit i) := by
  have h1 : (4294967296 : Nat) = 2 ^ 32 := by norm_num
  have h2 : (4294967295 : Nat) = 2 ^ 32 - 1 := by norm_num
  unfold not32
  rw [h1, h2, Nat.testBit_xor, Nat.testBit_mod_two_pow, Nat.testBit_two_pow_sub_one]
  cases decide (i < 32) <;> cases m.testBit i <;> rfl

/-- Bits of the merged value `(v & ~m) | (r & m)` for a 32-bit `v`. -/
theorem merge_testBit (v r m i : Nat) (hv : v < 4294967296) :
    ((v &&& not32 m) ||| (r &&& m)).testBit i
      = if m.testBit i then r.testBit i else v.testBit i := by
  rw [Nat.testBit_or, Nat.testBit_and, Nat.testBit_and, not32_testBit]
  by_cases hi : i < 32
  · cases hm : m.testBit i <;> simp [hi]
  · have hv2 : v.testBit i = false := by
      apply Nat.testBit_lt_two_pow
      have : (2 : Nat) ^ 32 ≤ 2 ^ i := Nat.pow_le_pow_right (by norm_num) (by omega)
      omega
    cases hm : m.testBit i <;> simp [hi, hv2]

/-- On a bound record whose types are in range, readback is one call of
the put-converter from the slot's cell into the bound field. -/
theorem devGenVarReadback_nolock_inRange (host : Host) (w : World) (prec : dbRecord)
    (p : DevGenVarPvtRec) (f : FieldRef)
    (hb : prec.dpvt = some p) (hf : p.dbaddr.pfield = some f)
    (h1 : toUShort p.dbaddr.field_type ≤ host.DBF_DEVICE)
    (h2 : toUShort (w.gvMem p.gv).dbr_t ≤ host.DBR_ENUM) :
    devGenVarReadback_nolock host w prec =
      (let c := host.dbFastPutConvertRoutine (toUShort (w.gvMem p.gv).dbr_t)
          (toUShort p.dbaddr.field_type) (w.mem (w.gvMem p.gv).data_p) (prec.getField f) p.dbaddr
       let w1 := w.log (.dbFastPutConvert (toUShort (w.gvMem p.gv).dbr_t) (toUShort p.dbaddr.field_type))
       if c.1 ≠ 0 then
         some { status := c.1,
                w := (w1.log (.recGblRecordError c.1 "Unable to read current value back")).log
                  (.recGblSetSevr .READ_ALARM .MAJOR_ALARM),
                prec := prec.setField f c.2 }
       else some { status := c.1, w := w1, prec := prec.setField f c.2 }) := by
  unfold devGenVarReadback_nolock
  simp only [hb, hf]
  have h3 : ¬ (toUShort p.dbaddr.field_type > host.DBF_DEVICE
      ∨ toUShort (w.gvMem p.gv).dbr_t > host.DBR_ENUM) := by omega
  simp only [h3, if_false]

/-- On a bound record whose types are in range, put is one call of the
get-converter from the bound field into the slot's cell. -/
theorem devGenVarPut_nolock_inRange (host : Host) (w : World) (prec : dbRecord)
    (p : DevGenVarPvtRec) (f : FieldRef)
    (hb : prec.dpvt = some p) (hf : p.dbaddr.pfield = some f)
    (h1 : toUShort p.dbaddr.field_type ≤ host.DBF_DEVICE)
    (h2 : toUShort (w.gvMem p.gv).dbr_t ≤ host.DBR_ENUM) :
    devGenVarPut_nolock host w prec =
      (let c := host.dbFastGetConvertRoutine (toUShort p.dbaddr.field_type)
          (toUShort (w.gvMem p.gv).dbr_t) (prec.getField f) (w.mem (w.gvMem p.gv).data_p) p.dbaddr
       let w1 := (w.log (.dbFastGetConvert (toUShort p.dbaddr.field_type)
          (toUShort (w.gvMem p.gv).dbr_t))).store (w.gvMem p.gv).data_p c.2
       if c.1 ≠ 0 then
         some { status := c.1, w := w1.log (.recGblSetSevr .WRITE_ALARM .INVALID_ALARM), prec := prec }
       else
         match (w.gvMem p.gv).evt with
         | some e => some { status := c.1, w := w1.log (.epicsEventSignal e), prec := prec }
         | none => some { status := c.1, w := w1, prec := prec }) := by
  unfold devGenVarPut_nolock
  simp only [hb, hf]
  have h3 : ¬ (toUShort p.dbaddr.field_type > host.DBF_DEVICE
      ∨ toUShort (w.gvMem p.gv).dbr_t > host.DBR_ENUM) := by omega
  simp only [h3, if_false]

/-! ## Masked writes (C1, C2) -/

/-- C1: masked write of the multi-bit output adapter. For a record bound
to its `RVAL` field (as `init_rec_mbbo` binds it), every 32-bit mask `m`,
prior slot value `v` and record raw value `r`, when the types are in range
and both converters succeed and copy the value unchanged, `write_mbbo`
returns 0 and leaves `(v & ~m) | (r & m)` in the slot's cell; every bit
outside `m` keeps its value from `v` and every bit of `m` comes from `r`. -/
theorem write_mbbo_masked_write (host : Host) (w : World) (prec : dbRecord)
    (p : DevGenVarPvtRec) (m v r : Nat)
    (hb : prec.dpvt = some p) (hf : p.dbaddr.pfield = some FieldRef.RVAL)
    (h1 : toUShort p.dbaddr.field_type ≤ host.DBF_DEVICE)
    (h2 : toUShort (w.gvMem p.gv).dbr_t ≤ host.DBR_ENUM)
    (hm : prec.mask = m) (hm32 : m < 4294967296)
    (hr : prec.rval = r) (hr32 : r < 4294967296)
    (hv : w.mem (w.gvMem p.gv).data_p = v) (hv32 : v < 4294967296)
    (hrb : ∀ src old, host.dbFastPutConvertRoutine (toUShort (w.gvMem p.gv).dbr_t)
      (toUShort p.dbaddr.field_type) src old p.dbaddr = (0, src))
    (hput : ∀ src old, host.dbFastGetConvertRoutine (toUShort p.dbaddr.field_type)
      (toUShort (w.gvMem p.gv).dbr_t) src old p.dbaddr = (0, src)) :
    ∃ q, write_mbbo host w prec = some q ∧ q.status = 0 ∧
      q.w.mem (w.gvMem p.gv).data_p = (v &&& not32 m) ||| (r &&& m) ∧
      (∀ i, m.testBit i = false →
        (q.w.mem (w.gvMem p.gv).data_p).testBit i = v.testBit i) ∧
      (∀ i, m.testBit i = true →
        (q.w.mem (w.gvMem p.gv).data_p).testBit i = r.testBit i) := by
  have hR := devGenVarReadback_nolock_inRange host (devGenVarLock w (w.gvMem p.gv)) prec p
    FieldRef.RVAL hb hf h1 (by simpa using h2)
  simp only [devGenVarLock_gvMem, devGenVarLock_mem, hrb, hv] at hR
  simp only [ne_eq, not_true_eq_false, if_false] at hR
  have hP := devGenVarPut_nolock_inRange host
    ((devGenVarLock w (w.gvMem p.gv)).log (.dbFastPutConvert (toUShort (w.gvMem p.gv).dbr_t)
      (toUShort p.dbaddr.field_type)))
    { (prec.setField FieldRef.RVAL v) with
        rbv := toUInt32 v, rval := (toUInt32 v &&& not32 m) ||| (toUInt32 r &&& toUInt32 m) }
    p FieldRef.RVAL (by simp [dbRecord.setField, hb]) hf h1 (by simpa using h2)
  simp only [World.log_gvMem, World.log_mem, devGenVarLock_gvMem, devGenVarLock_mem, hput] at hP
  simp only [ne_eq, not_true_eq_false, if_false, dbRecord.getField] at hP
  unfold write_mbbo
  have e1 : (prec.setField FieldRef.RVAL v).rval = v := rfl
  have e2 : (prec.setField FieldRef.RVAL v).mask = m := hm
  have key : (toUInt32 v &&& not32 m) ||| (toUInt32 r &&& toUInt32 m)
      = (v &&& not32 m) ||| (r &&& m) := by
    simp only [toUInt32, Nat.mod_eq_of_lt hv32, Nat.mod_eq_of_lt hr32, Nat.mod_eq_of_lt hm32]
  simp only [e2] at hP
  simp only [hb, hR, e1, e2, hr, if_true, hP]
  cases (w.gvMem p.gv).evt <;>
  · refine ⟨_, rfl, rfl, ?_, ?_, ?_⟩
    · simp [key]
    · intro i hi
      simp [key, merge_testBit v r m i hv32, hi]
    · intro i hi
      simp [key, merge_testBit v r m i hv32, hi]

/-- Witness for C1: slot value `0xFF00FF00`, mask `0x0000FFFF`, record raw
value `0x12345678`, slot with mutex and event. -/
theorem write_mbbo_masked_write_witness :
    ∃ q, write_mbbo hostCopy (worldOf (some 1) (some 2) 0xFF00FF00)
        (recOf (some (pvtRVAL 0)) 0x0000FFFF 0x12345678 0) = some q ∧ q.status = 0 ∧
      q.w.mem 7 = (0xFF00FF00 &&& not32 0x0000FFFF) ||| (0x12345678 &&& 0x0000FFFF) ∧
      (∀ i, (0x0000FFFF : Nat).testBit i = false →
        (q.w.mem 7).testBit i = (0xFF00FF00 : Nat).testBit i) ∧
      (∀ i, (0x0000FFFF : Nat).testBit i = true →
        (q.w.mem 7).testBit i = (0x12345678 : Nat).testBit i) :=
  write_mbbo_masked_write hostCopy (worldOf (some 1) (some 2) 0xFF00FF00)
    (recOf (some (pvtRVAL 0)) 0x0000FFFF 0x12345678 0) (pvtRVAL 0) 0x0000FFFF 0xFF00FF00 0x12345678
    rfl rfl (by decide) (by decide) rfl (by decide) rfl (by decide) rfl (by decide)
    (fun _ _ => rfl) (fun _ _ => rfl)

/-- C2, counterexample: with mask 0 `write_bo` skips readback and merge
and puts the record raw value itself: slot value 5, record raw value 9,
mask 0 leave 9 in the slot, where `(v & ~m) | (r & m)` is 5. -/
theorem write_bo_mask_zero_counterexample :
    ∃ q, write_bo hostCopy (worldOf none none 5) (recOf (some (pvtRVAL 0)) 0 9 0) = some q ∧
      q.status = 0 ∧ q.w.mem 7 = 9 ∧
      q.w.mem 7 ≠ (5 &&& not32 0) ||| (9 &&& 0) :=
  ⟨_, rfl, rfl, rfl, by decide⟩

/-- C2, amended: masked write of the binary output adapter. For a record
bound to its `RVAL` field (as `init_rec_bo` binds it), 32-bit `m`, `v`, `r`,
types in range and converters that succeed and copy the value unchanged,
`write_bo` returns 0; when `m` is not 0 the slot's cell then holds
`(v & ~m) | (r & m)`, every bit outside `m` keeping its value from `v`;
when `m` is 0 the cell holds `r`. -/
theorem write_bo_masked_write (host : Host) (w : World) (prec : dbRecord)
    (p : DevGenVarPvtRec) (m v r : Nat)
    (hb : prec.dpvt = some p) (hf : p.dbaddr.pfield = some FieldRef.RVAL)
    (h1 : toUShort p.dbaddr.field_type ≤ host.DBF_DEVICE)
    (h2 : toUShort (w.gvMem p.gv).dbr_t ≤ host.DBR_ENUM)
    (hm : prec.mask = m) (hm32 : m < 4294967296)
    (hr : prec.rval = r) (hr32 : r < 4294967296)
    (hv : w.mem (w.gvMem p.gv).data_p = v) (hv32 : v < 4294967296)
    (hrb : ∀ src old, host.dbFastPutConvertRoutine (toUShort (w.gvMem p.gv).dbr_t)
      (toUShort p.dbaddr.field_type) src old p.dbaddr = (0, src))
    (hput : ∀ src old, host.dbFastGetConvertRoutine (toUShort p.dbaddr.field_type)
      (toUShort (w.gvMem p.gv).dbr_t) src old p.dbaddr = (0, src)) :
    ∃ q, write_bo host w prec = some q ∧ q.status = 0 ∧
      (m ≠ 0 → q.w.mem (w.gvMem p.gv).data_p = (v &&& not32 m) ||| (r &&& m)) ∧
      (m ≠ 0 → ∀ i, m.testBit i = false →
        (q.w.mem (w.gvMem p.gv).data_p).testBit i = v.testBit i) ∧
      (m = 0 → q.w.mem (w.gvMem p.gv).data_p = r) := by
  by_cases hm0 : m = 0
  · have hP := devGenVarPut_nolock_inRange host (devGenVarLock w (w.gvMem p.gv)) prec
      p FieldRef.RVAL hb hf h1 (by simpa using h2)
    simp only [devGenVarLock_gvMem, devGenVarLock_mem, hput] at hP
    simp only [ne_eq, not_true_eq_false, if_false, dbRecord.getField] at hP
    have hz : toUInt32 prec.mask = 0 := by rw [hm, hm0]; rfl
    unfold write_bo
    simp only [hb, hz, ne_eq, not_true_eq_false, if_false, hP]
    cases (w.gvMem p.gv).evt <;>
    · refine ⟨_, rfl, rfl, ?_, ?_, ?_⟩
      · intro h; exact absurd hm0 h
      · intro h; exact absurd hm0 h
      · intro _; simp [hr]
  · have hR := devGenVarReadback_nolock_inRange host (devGenVarLock w (w.gvMem p.gv)) prec p
      FieldRef.RVAL hb hf h1 (by simpa using h2)
    simp only [devGenVarLock_gvMem, devGenVarLock_mem, hrb, hv] at hR
    simp only [ne_eq, not_true_eq_false, if_false] at hR
    have hP := devGenVarPut_nolock_inRange host
      ((devGenVarLock w (w.gvMem p.gv)).log (.dbFastPutConvert (toUShort (w.gvMem p.gv).dbr_t)
        (toUShort p.dbaddr.field_type)))
      { (prec.setField FieldRef.RVAL v) with
          rval := (toUInt32 v &&& not32 m) ||| (toUInt32 r &&& toUInt32 m) }
      p FieldRef.RVAL (by simp [dbRecord.setField, hb]) hf h1 (by simpa using h2)
    simp only [World.log_gvMem, World.log_mem, devGenVarLock_gvMem, devGenVarLock_mem, hput] at hP
    simp only [ne_eq, not_true_eq_false, if_false, dbRecord.getField] at hP
    have e1 : (prec.setField FieldRef.RVAL v).rval = v := rfl
    have e2 : (prec.setField FieldRef.RVAL v).mask = m := hm
    have key : (toUInt32 v &&& not32 m) ||| (toUInt32 r &&& toUInt32 m)
        = (v &&& not32 m) ||| (r &&& m) := by
      simp only [toUInt32, Nat.mod_eq_of_lt hv32, Nat.mod_eq_of_lt hr32, Nat.mod_eq_of_lt hm32]
    have hnz : toUInt32 prec.mask ≠ 0 := by
      rw [hm]; simp only [toUInt32, Nat.mod_eq_of_lt hm32]; exact hm0
    simp only [e2] at hP
    unfold write_bo
    simp only [hb, hnz, ne_eq, not_false_eq_true, if_true, hR, e1, e2, hr, not_true_eq_false,
      if_false, hP]
    cases (w.gvMem p.gv).evt <;>
    · refine ⟨_, rfl, rfl, ?_, ?_, ?_⟩
      · intro _; simp [key]
      · intro _ i hi
        simp [key, merge_testBit v r m i hv32, hi]
      · intro h; exact absurd h hm0

/-- Witness for C2: the non-zero mask `0x00000001`, slot value `0xFFFFFFFE`,
record raw value 1, slot with mutex and event: the slot ends as
`0xFFFFFFFF` and every bit but bit 0 keeps its value. -/
theorem write_bo_masked_write_witness :
    ∃ q, write_bo hostCopy (worldOf (some 1) (some 2) 0xFFFFFFFE)
        (recOf (some (pvtRVAL 0)) 1 1 0) = some q ∧ q.status = 0 ∧
      q.w.mem 7 = (0xFFFFFFFE &&& not32 1) ||| (1 &&& 1) ∧
      (∀ i, (1 : Nat).testBit i = false →
        (q.w.mem 7).testBit i = (0xFFFFFFFE : Nat).testBit i) := by
  obtain ⟨q, h1, h2, h3, h4, _⟩ := write_bo_masked_write hostCopy
    (worldOf (some 1) (some 2) 0xFFFFFFFE)
    (recOf (some (pvtRVAL 0)) 1 1 0) (pvtRVAL 0) 1 0xFFFFFFFE 1
    rfl rfl (by decide) (by decide) rfl (by decide) rfl (by decide) rfl (by decide)
    (fun _ _ => rfl) (fun _ _ => rfl)
  exact ⟨q, h1, h2, h3 (by decide), h4 (by decide)⟩

/-! ## Bind failures (C3, C4) -/

/-- C3: for a `VME_IO` link whose name resolves to an entry `h` and whose
card is at least `h.n_entries`, `devGenVarInitRec` (hence
`devGenVarInitInpRec`, and `devGenVarInitOutRec` as the status code is not
0) returns `S_dev_badCard`, makes no allocation request and leaves
`prec->dpvt` as it was. -/
theorem devGenVarInitRec_badCard (host : Host) (w : World) (l : DBLINK) (prec : dbRecord)
    (fldOff rawFldOff : Int) (h : RegHeadRec)
    (ht : l.type = LinkType.VME_IO_LINK)
    (hfind : findEntry w l.value.parm = some h)
    (hcard : l.value.card ≥ h.n_entries) :
    (devGenVarInitRec host w l prec fldOff rawFldOff).status = host.S_dev_badCard ∧
    (devGenVarInitRec host w l prec fldOff rawFldOff).w.nalloc = w.nalloc ∧
    (devGenVarInitRec host w l prec fldOff rawFldOff).prec.dpvt = prec.dpvt ∧
    devGenVarInitInpRec host w l prec fldOff rawFldOff
      = devGenVarInitRec host w l prec fldOff rawFldOff ∧
    (host.S_dev_badCard ≠ 0 →
      devGenVarInitOutRec host w l prec fldOff rawFldOff
        = some (devGenVarInitRec host w l prec fldOff rawFldOff)) := by
  have hr : devGenVarInitRec host w l prec fldOff rawFldOff
      = devGenVarInitRec_bail (w.log (.errlogPrintf "devGenVarInitRec: invalid card #"))
          prec false host.S_dev_badCard := by
    unfold devGenVarInitRec
    simp only [ht, ne_eq, not_true_eq_false, if_false, hfind, hcard, if_true]
  have hs : (devGenVarInitRec host w l prec fldOff rawFldOff).status = host.S_dev_badCard := by
    rw [hr]; simp
  refine ⟨hs, ?_, ?_, rfl, ?_⟩
  · rw [hr]; simp
  · rw [hr]; simp
  · intro hnz
    unfold devGenVarInitOutRec
    simp only [hs, ne_eq, hnz, not_false_eq_true, if_true]

/-- Witness for C3: card 2 on "testL", which has 2 slots. -/
theorem devGenVarInitRec_badCard_witness :
    (devGenVarInitRec hostCopy worldTest (vmeLink 2 0 (some "testL"))
        (recOf none 0 0 0) 1 (-1)).status = hostCopy.S_dev_badCard ∧
    (devGenVarInitRec hostCopy worldTest (vmeLink 2 0 (some "testL"))
        (recOf none 0 0 0) 1 (-1)).w.nalloc = worldTest.nalloc ∧
    (devGenVarInitRec hostCopy worldTest (vmeLink 2 0 (some "testL"))
        (recOf none 0 0 0) 1 (-1)).prec.dpvt = none ∧
    (devGenVarInitInpRec hostCopy worldTest (vmeLink 2 0 (some "testL"))
        (recOf none 0 0 0) 1 (-1)).status = hostCopy.S_dev_badCard ∧
    (devGenVarInitOutRec hostCopy worldTest (vmeLink 2 0 (some "testL"))
        (recOf none 0 0 0) 1 (-1)).map (fun r => r.status) = some hostCopy.S_dev_badCard := by
  obtain ⟨h1, h2, h3, h4, h5⟩ := devGenVarInitRec_badCard hostCopy worldTest
    (vmeLink 2 0 (some "testL")) (recOf none 0 0 0) 1 (-1)
    { gv := 100, n_entries := 2 } rfl (by decide) (by decide)
  refine ⟨h1, h2, h3, ?_, ?_⟩
  · rw [h4]; exact h1
  · rw [h5 (by decide), Option.map_some', h1]

/-- C4: for a `VME_IO` link whose name `findEntry` does not find (a null
name is never found), `devGenVarInitRec` (hence `devGenVarInitInpRec`, and
`devGenVarInitOutRec` as the status code is not 0) returns
`S_dev_noDeviceFound`, makes no allocation request, leaves `prec->dpvt` as
it was and leaves the registry unchanged: every lookup gives the same
result after the failed bind as before it. -/
theorem devGenVarInitRec_noDeviceFound (host : Host) (w : World) (l : DBLINK) (prec : dbRecord)
    (fldOff rawFldOff : Int)
    (ht : l.type = LinkType.VME_IO_LINK)
    (hfind : findEntry w l.value.parm = none) :
    findEntry w none = none ∧
    (devGenVarInitRec host w l prec fldOff rawFldOff).status = host.S_dev_noDeviceFound ∧
    (devGenVarInitRec host w l prec fldOff rawFldOff).w.nalloc = w.nalloc ∧
    (devGenVarInitRec host w l prec fldOff rawFldOff).prec.dpvt = prec.dpvt ∧
    (devGenVarInitRec host w l prec fldOff rawFldOff).w.devGenVarRegistry
      = w.devGenVarRegistry ∧
    (∀ name, findEntry (devGenVarInitRec host w l prec fldOff rawFldOff).w name
      = findEntry w name) ∧
    devGenVarInitInpRec host w l prec fldOff rawFldOff
      = devGenVarInitRec host w l prec fldOff rawFldOff ∧
    (host.S_dev_noDeviceFound ≠ 0 →
      devGenVarInitOutRec host w l prec fldOff rawFldOff
        = some (devGenVarInitRec host w l prec fldOff rawFldOff)) := by
  have hr : devGenVarInitRec host w l prec fldOff rawFldOff
      = devGenVarInitRec_bail (w.log (.errlogPrintf "devGenVarInitRec: no registry entry found"))
          prec false host.S_dev_noDeviceFound := by
    unfold devGenVarInitRec
    simp only [ht, ne_eq, not_true_eq_false, if_false, hfind]
  have hs : (devGenVarInitRec host w l prec fldOff rawFldOff).status
      = host.S_dev_noDeviceFound := by
    rw [hr]; simp
  have hreg : (devGenVarInitRec host w l prec fldOff rawFldOff).w.devGenVarRegistry
      = w.devGenVarRegistry := by
    rw [hr]; simp
  refine ⟨rfl, hs, ?_, ?_, hreg, ?_, rfl, ?_⟩
  · rw [hr]; simp
  · rw [hr]; simp
  · intro name
    unfold findEntry registryPtr
    rw [hreg]
  · intro hnz
    unfold devGenVarInitOutRec
    simp only [hs, ne_eq, hnz, not_false_eq_true, if_true]

/-- Witness for C4: the name "nope" in the test registry. -/
theorem devGenVarInitRec_noDeviceFound_witness :
    (devGenVarInitRec hostCopy worldTest (vmeLink 0 0 (some "nope"))
        (recOf none 0 0 0) 1 (-1)).status = hostCopy.S_dev_noDeviceFound ∧
    (devGenVarInitRec hostCopy worldTest (vmeLink 0 0 (some "nope"))
        (recOf none 0 0 0) 1 (-1)).w.nalloc = worldTest.nalloc ∧
    (devGenVarInitRec hostCopy worldTest (vmeLink 0 0 (some "nope"))
        (recOf none 0 0 0) 1 (-1)).prec.dpvt = none ∧
    findEntry (devGenVarInitRec hostCopy worldTest (vmeLink 0 0 (some "nope"))
        (recOf none 0 0 0) 1 (-1)).w (some "testL") = some { gv := 100, n_entries := 2 } ∧
    (devGenVarInitOutRec hostCopy worldTest (vmeLink 0 0 (some "nope"))
        (recOf none 0 0 0) 1 (-1)).map (fun r => r.status)
      = some hostCopy.S_dev_noDeviceFound := by
  obtain ⟨_, h1, h2, h3, _, h5, _, h7⟩ := devGenVarInitRec_noDeviceFound hostCopy worldTest
    (vmeLink 0 0 (some "nope")) (recOf none 0 0 0) 1 (-1) rfl (by decide)
  refine ⟨h1, h2, h3, ?_, ?_⟩
  · rw [h5]; decide
  · rw [h7 (by decide), Option.map_some', h1]

/-! ## Registration (C5) -/

/-- After a new key has been appended and its `userPvt` set, a lookup of
that key finds the entry with the registered head. -/
theorem find_registered (l : List GPHENTRY) (name : String) (a : Nat) (h : RegHeadRec)
    (habs : l.find? (fun e => decide (e.pvtid = a ∧ e.name = name)) = none) :
    ((l ++ [({ name := name, pvtid := a, userPvt := none } : GPHENTRY)]).map
        (fun (e : GPHENTRY) =>
          if e.pvtid = a ∧ e.name = name then { e with userPvt := some h } else e)).find?
      (fun e => decide (e.pvtid = a ∧ e.name = name))
      = some { name := name, pvtid := a, userPvt := some h } := by
  induction l with
  | nil => simp
  | cons e l ih =>
    rw [List.find?_cons] at habs
    by_cases he : e.pvtid = a ∧ e.name = name
    · simp [he] at habs
    · simp only [he, decide_False] at habs
      simp only [List.cons_append, List.map_cons, he, if_false, List.find?_cons, decide_False]
      exact ih habs

/-- After a new key has been appended and its `userPvt` set, a lookup of
any other name yields the same `userPvt` as before. -/
theorem find_other (l : List GPHENTRY) (name other : String) (a : Nat) (h : RegHeadRec)
    (hne : other ≠ name) :
    (match ((l ++ [({ name := name, pvtid := a, userPvt := none } : GPHENTRY)]).map
        (fun (e : GPHENTRY) =>
          if e.pvtid = a ∧ e.name = name then { e with userPvt := some h } else e)).find?
        (fun e => decide (e.pvtid = a ∧ e.name = other)) with
      | none => none
      | some he => he.userPvt)
      = (match l.find? (fun e => decide (e.pvtid = a ∧ e.name = other)) with
      | none => none
      | some he => he.userPvt) := by
  induction l with
  | nil =>
    have : ¬ (name = other) := fun h => hne h.symm
    simp [this]
  | cons e l ih =>
    by_cases he : e.pvtid = a ∧ e.name = other
    · have hn : ¬ (e.pvtid = a ∧ e.name = name) := by
        intro hh; exact hne (he.2.symm.trans hh.2)
      have hd : decide (e.pvtid = a ∧ e.name = other) = true := decide_eq_true he
      simp only [List.cons_append, List.map_cons, if_neg hn, List.find?_cons, hd]
    · by_cases hn : e.pvtid = a ∧ e.name = name
      · have he2 : ¬ (a = a ∧ name = other) := by
          intro hh; exact hne hh.2.symm
        simp only [List.cons_append, List.map_cons, hn, and_self, if_true, List.find?_cons,
          he, decide_False]
        simp only [hn.1, hn.2] at he
        simp only [he, decide_False]
        exact ih
      · simp only [List.cons_append, List.map_cons, hn, if_false, List.find?_cons, he,
          decide_False]
        exact ih

/-- The state `devGenVarRegister` leaves when the table exists, the name
is new and both allocations succeed. -/
theorem devGenVarRegister_ok (host : Host) (w : World) (tbl : gphPvt) (name : String)
    (gv n : Int)
    (hinit : w.devGenVarRegistry = some tbl)
    (habs : gphFind w.devGenVarRegistry name (registryPtr w) = none)
    (hm1 : host.mallocOk w.nalloc = true) (hm2 : host.mallocOk (w.nalloc + 1) = true) :
    devGenVarRegister host w name gv n =
      (0, { w.alloc.alloc with devGenVarRegistry := some (setUserPvt
        { tbl with entries := tbl.entries ++ [{ name := name, pvtid := tbl.addr, userPvt := none }] }
        name tbl.addr { gv := gv, n_entries := n }) }) := by
  have hp : registryPtr w = tbl.addr := by unfold registryPtr; rw [hinit]
  have hp1 : registryPtr w.alloc = tbl.addr := by unfold registryPtr; simp [hinit]
  rw [hinit, hp] at habs
  unfold devGenVarRegister
  simp only [hm1, Bool.not_true, Bool.false_eq_true, if_false, hp1]
  unfold gphAdd
  simp only [World.alloc_registry, hinit, habs, Option.isSome_none, Bool.false_eq_true, if_false,
    World.alloc_nalloc, hm2, Bool.not_true, Option.map_some']

/-- C5, counterexample: in the initialised, empty table the new name
"testL" is registered while the heap has run out; `devGenVarRegister`
returns -1, not 0, and "testL" is still not found. -/
theorem devGenVarRegister_noMemory_counterexample :
    worldInit.devGenVarRegistry.isSome = true ∧
    gphFind worldInit.devGenVarRegistry "testL" (registryPtr worldInit) = none ∧
    (devGenVarRegister hostNoMem worldInit "testL" 100 2).1 = -1 ∧
    findEntry (devGenVarRegister hostNoMem worldInit "testL" 100 2).2 (some "testL") = none := by
  refine ⟨rfl, rfl, rfl, rfl⟩

/-- C5, amended: register/find round trip. Once the table exists, for a
name not present in it and any slot array `gv` with count `n`, when the two
allocations (the head record and the table node) succeed,
`devGenVarRegister` returns 0; afterwards `findEntry` of the name returns
exactly `(gv, n)` and `findEntry` of every other name returns what it
returned before; and a bind of a `VME_IO` link with that name and a card
below `n` whose binding can be allocated selects the slot `gv + card`. -/
theorem devGenVarRegister_find (host : Host) (w : World) (tbl : gphPvt) (name : String)
    (gv n : Int)
    (hinit : w.devGenVarRegistry = some tbl)
    (habs : gphFind w.devGenVarRegistry name (registryPtr w) = none)
    (hm1 : host.mallocOk w.nalloc = true) (hm2 : host.mallocOk (w.nalloc + 1) = true) :
    (devGenVarRegister host w name gv n).1 = 0 ∧
    findEntry (devGenVarRegister host w name gv n).2 (some name)
      = some { gv := gv, n_entries := n } ∧
    (∀ other, other ≠ some name →
      findEntry (devGenVarRegister host w name gv n).2 other = findEntry w other) ∧
    (∀ (l : DBLINK) (prec : dbRecord) (fldOff rawFldOff : Int),
      l.type = LinkType.VME_IO_LINK → l.value.parm = some name → l.value.card < n →
      host.mallocOk (w.nalloc + 2) = true →
      ∃ p, (devGenVarInitRec host (devGenVarRegister host w name gv n).2 l prec
              fldOff rawFldOff).prec.dpvt = some p ∧ p.gv = gv + l.value.card) := by
  have hw := devGenVarRegister_ok host w tbl name gv n hinit habs hm1 hm2
  have hp : registryPtr w = tbl.addr := by unfold registryPtr; rw [hinit]
  have habs2 := habs
  rw [hinit, hp] at habs2
  have hfind : findEntry (devGenVarRegister host w name gv n).2 (some name)
      = some { gv := gv, n_entries := n } := by
    rw [hw]
    unfold findEntry registryPtr gphFind setUserPvt
    simp only
    unfold gphFind at habs2
    simp only at habs2
    rw [find_registered tbl.entries name tbl.addr { gv := gv, n_entries := n } habs2]
  refine ⟨by rw [hw], hfind, ?_, ?_⟩
  · intro other hne
    cases other with
    | none => rfl
    | some o =>
      have hne2 : o ≠ name := fun h => hne (by rw [h])
      rw [hw]
      unfold findEntry registryPtr gphFind setUserPvt
      simp only [hinit]
      exact find_other tbl.entries name o tbl.addr { gv := gv, n_entries := n } hne2
  · intro l prec fldOff rawFldOff ht hparm hcard hm3
    have hfind2 : findEntry (devGenVarRegister host w name gv n).2 l.value.parm
        = some { gv := gv, n_entries := n } := by rw [hparm]; exact hfind
    have hna : (devGenVarRegister host w name gv n).2.nalloc = w.nalloc + 2 := by rw [hw]; rfl
    have hc : ¬ (l.value.card ≥ n) := by omega
    unfold devGenVarInitRec
    simp only [ht, ne_eq, not_true_eq_false, if_false, hfind2, hc, hna, hm3, Bool.not_true,
      Bool.false_eq_true]
    split_ifs <;> simp

/-- Witness for C5: the scenario of genVarTestMain.cpp on an initialised
table. "testL" (2 slots at 100) is registered after "testS" (1 slot at
200); both are then found, and binds to "testL" select slot 100 for card
0 and slot 101 for card 1, which are `testL[0]` and `testL[1]`. -/
theorem devGenVarRegister_find_witness :
    (devGenVarRegister hostCopy (devGenVarRegister hostCopy worldInit "testS" 200 1).2
      "testL" 100 2).1 = 0 ∧
    findEntry worldTest (some "testL") = some { gv := 100, n_entries := 2 } ∧
    findEntry worldTest (some "testS") = some { gv := 200, n_entries := 1 } ∧
    (∃ p, (devGenVarInitRec hostCopy worldTest (vmeLink 0 0 (some "testL"))
        (recOf none 0 0 0) 1 (-1)).prec.dpvt = some p ∧ p.gv = 100 + 0) ∧
    (∃ p, (devGenVarInitRec hostCopy worldTest (vmeLink 1 0 (some "testL"))
        (recOf none 0 0 0) 1 (-1)).prec.dpvt = some p ∧ p.gv = 100 + 1) ∧
    (worldTest.gvMem (100 + 0)).data_p = 2 ∧ (worldTest.gvMem (100 + 1)).data_p = 3 := by
  have T := devGenVarRegister_find hostCopy (devGenVarRegister hostCopy worldInit "testS" 200 1).2
    { addr := 4096, size := 512,
      entries := [{ name := "testS", pvtid := 4096, userPvt := some { gv := 200, n_entries := 1 } }] }
    "testL" 100 2 rfl rfl rfl rfl
  refine ⟨T.1, T.2.1, ?_, ?_, ?_, rfl, rfl⟩
  · exact (T.2.2.1 (some "testS") (by decide)).trans (by decide)
  · exact T.2.2.2 (vmeLink 0 0 (some "testL")) (recOf none 0 0 0) 1 (-1) rfl rfl (by decide) rfl
  · exact T.2.2.2 (vmeLink 1 0 (some "testL")) (recOf none 0 0 0) 1 (-1) rfl rfl (by decide) rfl

/-! ## Type range check (C6) -/

/-- When the field type, or the slot type as the code reads it (its low
16 bits), is out of range, get, readback and put return -1 and leave the
state and the record as they were: no converter call, no alarm, no event. -/
theorem nolock_outOfRange (host : Host) (w : World) (prec : dbRecord) (p : DevGenVarPvtRec)
    (hb : prec.dpvt = some p)
    (hr : toUShort p.dbaddr.field_type > host.DBF_DEVICE
      ∨ toUShort (w.gvMem p.gv).dbr_t > host.DBR_ENUM) :
    devGenVarGet_nolock host w prec = some { status := -1, w := w, prec := prec } ∧
    devGenVarReadback_nolock host w prec = some { status := -1, w := w, prec := prec } ∧
    devGenVarPut_nolock host w prec = some { status := -1, w := w, prec := prec } := by
  unfold devGenVarGet_nolock devGenVarReadback_nolock devGenVarPut_nolock
  simp only [hb, hr, if_true, and_self]

/-- C6, at the failing input: the slot's stored `dbr_t` is `0x10005`, above
`DBR_ENUM`, and the field type is in range. The code compares the value
truncated to `unsigned short` (5), so get, readback and put do not fail
with -1: each calls the converter of type 5 and returns its status 0; get
and readback overwrite the field with the cell's 42, put overwrites the
cell with the field's 9 and signals the event. -/
theorem nolock_truncated_type_tag :
    (worldBadType.gvMem 0).dbr_t > hostCopy.DBR_ENUM ∧
    (devGenVarGet_nolock hostCopy worldBadType (recOf (some (pvtRVAL 0)) 0 9 0)).map
        (fun r => (r.status, r.w.trace, r.prec.rval))
      = some (0, [HostCall.dbFastPutConvert 5 6], 42) ∧
    (devGenVarReadback_nolock hostCopy worldBadType (recOf (some (pvtRVAL 0)) 0 9 0)).map
        (fun r => (r.status, r.w.trace, r.prec.rval))
      = some (0, [HostCall.dbFastPutConvert 5 6], 42) ∧
    (devGenVarPut_nolock hostCopy worldBadType (recOf (some (pvtRVAL 0)) 0 9 0)).map
        (fun r => (r.status, r.w.trace, r.w.mem 7))
      = some (0, [HostCall.dbFastGetConvert 6 5, HostCall.epicsEventSignal 2], 9) := by
  refine ⟨by decide, rfl, rfl, rfl⟩

/-! ## Get (C7) -/

@[simp] theorem dbRecord.setField_udf (r : dbRecord) (f : FieldRef) (v : Nat) :
    (r.setField f v).udf = r.udf := by
  cases f <;> rfl

@[simp] theorem dbRecord.setField_dpvt (r : dbRecord) (f : FieldRef) (v : Nat) :
    (r.setField f v).dpvt = r.dpvt := by
  cases f <;> rfl

@[simp] theorem dbRecord.setField_pini (r : dbRecord) (f : FieldRef) (v : Nat) :
    (r.setField f v).pini = r.pini := by
  cases f <;> rfl

/-- On a bound record whose types are in range, get is one call of the
put-converter from the slot's cell into the bound field, followed by the
alarm on failure or by the no-conversion status. -/
theorem devGenVarGet_nolock_inRange (host : Host) (w : World) (prec : dbRecord)
    (p : DevGenVarPvtRec) (f : FieldRef)
    (hb : prec.dpvt = some p) (hf : p.dbaddr.pfield = some f)
    (h1 : toUShort p.dbaddr.field_type ≤ host.DBF_DEVICE)
    (h2 : toUShort (w.gvMem p.gv).dbr_t ≤ host.DBR_ENUM) :
    devGenVarGet_nolock host w prec =
      (let c := host.dbFastPutConvertRoutine (toUShort (w.gvMem p.gv).dbr_t)
          (toUShort p.dbaddr.field_type) (w.mem (w.gvMem p.gv).data_p) (prec.getField f) p.dbaddr
       let w1 := w.log (.dbFastPutConvert (toUShort (w.gvMem p.gv).dbr_t) (toUShort p.dbaddr.field_type))
       if c.1 ≠ 0 then
         some { status := c.1, w := w1.log (.recGblSetSevr .READ_ALARM .INVALID_ALARM),
                prec := prec.setField f c.2 }
       else if p.flags &&& FLG_NCONV ≠ 0 then
         some { status := 2, w := w1, prec := { (prec.setField f c.2) with udf := false } }
       else some { status := c.1, w := w1, prec := prec.setField f c.2 }) := by
  unfold devGenVarGet_nolock
  simp only [hb, hf]
  have h3 : ¬ (toUShort p.dbaddr.field_type > host.DBF_DEVICE
      ∨ toUShort (w.gvMem p.gv).dbr_t > host.DBR_ENUM) := by omega
  simp only [h3, if_false]

/-- C7, counterexample: the binding has the no-conversion bit set, the
types are in range and the converter fails with status 1. Get has called
the converter, returns 1 and not 2, raises the read-alarm and leaves `udf`
set. With a converter that succeeds the call is made as well, and the
field is overwritten from the slot (42). -/
theorem devGenVarGet_nolock_nconv_counterexample :
    (pvtRVAL FLG_NCONV).flags &&& FLG_NCONV ≠ 0 ∧
    (devGenVarGet_nolock (hostFail 1) (worldOf none none 42)
        (recOf (some (pvtRVAL FLG_NCONV)) 0 9 0)).map
        (fun r => (r.status, r.prec.udf, r.w.trace))
      = some (1, true, [HostCall.dbFastPutConvert 6 6,
          HostCall.recGblSetSevr AlarmStat.READ_ALARM AlarmSevr.INVALID_ALARM]) ∧
    (devGenVarGet_nolock hostCopy (worldOf none none 42)
        (recOf (some (pvtRVAL FLG_NCONV)) 0 9 0)).map
        (fun r => (r.status, r.prec.udf, r.w.trace, r.prec.rval))
      = some (2, false, [HostCall.dbFastPutConvert 6 6], 42) := by
  refine ⟨by decide, rfl, rfl⟩

/-- C7, amended: for a bound record whose types are in range, get calls
the converter selected by (slot type, field type) once, whether or not the
no-conversion bit is set, and stores its result in the bound field. If the
converter fails, get returns its non-zero status, raises a read-alarm at
INVALID severity and leaves `udf` untouched. If it succeeds and the bit is
set, get clears `udf` and returns 2, raising no alarm. If it succeeds and
the bit is clear, get returns 0, raises no alarm and leaves `udf`
untouched. -/
theorem devGenVarGet_nolock_status (host : Host) (w : World) (prec : dbRecord)
    (p : DevGenVarPvtRec) (f : FieldRef) (st : Int) (v : Nat)
    (hb : prec.dpvt = some p) (hf : p.dbaddr.pfield = some f)
    (h1 : toUShort p.dbaddr.field_type ≤ host.DBF_DEVICE)
    (h2 : toUShort (w.gvMem p.gv).dbr_t ≤ host.DBR_ENUM)
    (hc : host.dbFastPutConvertRoutine (toUShort (w.gvMem p.gv).dbr_t)
      (toUShort p.dbaddr.field_type) (w.mem (w.gvMem p.gv).data_p) (prec.getField f) p.dbaddr
        = (st, v)) :
    ∃ r, devGenVarGet_nolock host w prec = some r ∧
      r.prec.getField f = v ∧
      (st ≠ 0 → r.status = st ∧ r.prec.udf = prec.udf ∧
        r.w.trace = w.trace ++ [HostCall.dbFastPutConvert (toUShort (w.gvMem p.gv).dbr_t)
            (toUShort p.dbaddr.field_type),
          HostCall.recGblSetSevr AlarmStat.READ_ALARM AlarmSevr.INVALID_ALARM]) ∧
      (st = 0 → p.flags &&& FLG_NCONV ≠ 0 → r.status = 2 ∧ r.prec.udf = false ∧
        r.w.trace = w.trace ++ [HostCall.dbFastPutConvert (toUShort (w.gvMem p.gv).dbr_t)
            (toUShort p.dbaddr.field_type)]) ∧
      (st = 0 → p.flags &&& FLG_NCONV = 0 → r.status = 0 ∧ r.prec.udf = prec.udf ∧
        r.w.trace = w.trace ++ [HostCall.dbFastPutConvert (toUShort (w.gvMem p.gv).dbr_t)
            (toUShort p.dbaddr.field_type)]) := by
  have hG := devGenVarGet_nolock_inRange host w prec p f hb hf h1 h2
  simp only [hc] at hG
  have hget : ∀ r : dbRecord, (r.setField f v).getField f = v := by
    intro r; cases f <;> simp [dbRecord.setField, dbRecord.getField]
  have hget2 : ∀ r : dbRecord, ({ (r.setField f v) with udf := false } : dbRecord).getField f = v := by
    intro r; cases f <;> simp [dbRecord.setField, dbRecord.getField]
  by_cases hst : st = 0
  · by_cases hn : p.flags &&& FLG_NCONV = 0
    · simp only [hst, ne_eq, not_true_eq_false, if_false, hn] at hG
      refine ⟨_, hG, hget prec, ?_, ?_, ?_⟩
      · intro h; exact absurd hst h
      · intro _ h; exact absurd hn h
      · intro _ _; simp [hst]
    · simp only [hst, ne_eq, not_true_eq_false, if_false, hn, not_false_eq_true, if_true] at hG
      refine ⟨_, hG, hget2 prec, ?_, ?_, ?_⟩
      · intro h; exact absurd hst h
      · intro _ _; simp
      · intro _ h; exact absurd h hn
  · simp only [ne_eq, hst, not_false_eq_true, if_true] at hG
    refine ⟨_, hG, hget prec, ?_, ?_, ?_⟩
    · intro _; simp
    · intro h; exact absurd h hst
    · intro h; exact absurd h hst

/-- Witness for C7: no-conversion bit set, converter succeeding with 42:
status 2, `udf` cleared, one converter call and no alarm. -/
theorem devGenVarGet_nolock_status_witness :
    ∃ r, devGenVarGet_nolock hostCopy (worldOf none none 42)
        (recOf (some (pvtRVAL FLG_NCONV)) 0 9 0) = some r ∧
      r.prec.getField FieldRef.RVAL = 42 ∧
      r.status = 2 ∧ r.prec.udf = false ∧ r.w.trace = [] ++ [HostCall.dbFastPutConvert 6 6] := by
  obtain ⟨r, h1, h2, _, h4, _⟩ := devGenVarGet_nolock_status hostCopy (worldOf none none 42)
    (recOf (some (pvtRVAL FLG_NCONV)) 0 9 0) (pvtRVAL FLG_NCONV) FieldRef.RVAL 0 42
    rfl rfl (by decide) (by decide) rfl
  exact ⟨r, h1, h2, h4 rfl (by decide)⟩

/-! ## Put (C8) -/

/-- C8: for a bound record whose types are in range, `devGenVarPut_nolock`
calls the converter once and returns its status `st`. When `st` is 0 no
alarm is raised and the slot's event, if it has one, is signalled once
(nothing is signalled if it has none); when `st` is not 0 a write-alarm at
INVALID severity is raised and no event is signalled. `devGenVarPut` does
the same between lock and unlock of the slot's mutex, if it has one. -/
theorem devGenVarPut_status (host : Host) (w : World) (prec : dbRecord)
    (p : DevGenVarPvtRec) (f : FieldRef) (st : Int) (v : Nat)
    (hb : prec.dpvt = some p) (hf : p.dbaddr.pfield = some f)
    (h1 : toUShort p.dbaddr.field_type ≤ host.DBF_DEVICE)
    (h2 : toUShort (w.gvMem p.gv).dbr_t ≤ host.DBR_ENUM)
    (hc : host.dbFastGetConvertRoutine (toUShort p.dbaddr.field_type)
      (toUShort (w.gvMem p.gv).dbr_t) (prec.getField f) (w.mem (w.gvMem p.gv).data_p) p.dbaddr
        = (st, v)) :
    (∃ r, devGenVarPut_nolock host w prec = some r ∧ r.status = st ∧
      r.w.mem (w.gvMem p.gv).data_p = v ∧
      r.w.trace = w.trace
        ++ [HostCall.dbFastGetConvert (toUShort p.dbaddr.field_type) (toUShort (w.gvMem p.gv).dbr_t)]
        ++ (if st ≠ 0 then [HostCall.recGblSetSevr AlarmStat.WRITE_ALARM AlarmSevr.INVALID_ALARM]
            else match (w.gvMem p.gv).evt with
              | some e => [HostCall.epicsEventSignal e]
              | none => [])) ∧
    (∃ r, devGenVarPut host w prec = some r ∧ r.status = st ∧
      r.w.mem (w.gvMem p.gv).data_p = v ∧
      r.w.trace = w.trace
        ++ (match (w.gvMem p.gv).mtx with
              | some m => [HostCall.epicsMutexMustLock m]
              | none => [])
        ++ [HostCall.dbFastGetConvert (toUShort p.dbaddr.field_type) (toUShort (w.gvMem p.gv).dbr_t)]
        ++ (if st ≠ 0 then [HostCall.recGblSetSevr AlarmStat.WRITE_ALARM AlarmSevr.INVALID_ALARM]
            else match (w.gvMem p.gv).evt with
              | some e => [HostCall.epicsEventSignal e]
              | none => [])
        ++ (match (w.gvMem p.gv).mtx with
              | some m => [HostCall.epicsMutexUnlock m]
              | none => [])) := by
  have hN : ∀ w0 : World, w0.gvMem = w.gvMem → w0.mem = w.mem →
      ∃ r, devGenVarPut_nolock host w0 prec = some r ∧ r.status = st ∧
        r.w.mem (w.gvMem p.gv).data_p = v ∧
        r.w.trace = w0.trace
          ++ [HostCall.dbFastGetConvert (toUShort p.dbaddr.field_type)
                (toUShort (w.gvMem p.gv).dbr_t)]
          ++ (if st ≠ 0 then
                [HostCall.recGblSetSevr AlarmStat.WRITE_ALARM AlarmSevr.INVALID_ALARM]
              else match (w.gvMem p.gv).evt with
                | some e => [HostCall.epicsEventSignal e]
                | none => []) := by
    intro w0 hg hmem
    have hP := devGenVarPut_nolock_inRange host w0 prec p f hb hf (by simpa using h1)
      (by rw [hg]; exact h2)
    simp only [hg, hmem, hc] at hP
    by_cases hst : st = 0
    · simp only [hst, ne_eq, not_true_eq_false, if_false] at hP ⊢
      cases he : (w.gvMem p.gv).evt with
      | none => rw [he] at hP; exact ⟨_, hP, rfl, by simp, by simp⟩
      | some e => rw [he] at hP; exact ⟨_, hP, rfl, by simp, by simp⟩
    · simp only [ne_eq, hst, not_false_eq_true, if_true] at hP ⊢
      exact ⟨_, hP, rfl, by simp, by simp⟩
  refine ⟨?_, ?_⟩
  · obtain ⟨r, hr, hs, hm, ht⟩ := hN w rfl rfl
    exact ⟨r, hr, hs, hm, ht⟩
  · unfold devGenVarPut
    simp only [hb]
    cases hmx : (w.gvMem p.gv).mtx with
    | none =>
      obtain ⟨r, hr, hs, hm, ht⟩ := hN w rfl rfl
      exact ⟨r, hr, hs, hm, by simp [ht]⟩
    | some m =>
      obtain ⟨r, hr, hs, hm, ht⟩ := hN (w.log (.epicsMutexMustLock m)) rfl rfl
      simp only [hr]
      exact ⟨_, rfl, hs, by simpa using hm, by simp [ht]⟩

/-- Witness for C8: a successful put on a slot with mutex 1 and event 2. -/
theorem devGenVarPut_status_witness :
    (∃ r, devGenVarPut_nolock hostCopy (worldOf (some 1) (some 2) 5)
        (recOf (some (pvtRVAL 0)) 0 9 0) = some r ∧ r.status = 0 ∧ r.w.mem 7 = 9 ∧
      r.w.trace = [] ++ [HostCall.dbFastGetConvert 6 6]
        ++ (if (0 : Int) ≠ 0 then
              [HostCall.recGblSetSevr AlarmStat.WRITE_ALARM AlarmSevr.INVALID_ALARM]
            else [HostCall.epicsEventSignal 2])) ∧
    (∃ r, devGenVarPut hostCopy (worldOf (some 1) (some 2) 5)
        (recOf (some (pvtRVAL 0)) 0 9 0) = some r ∧ r.status = 0 ∧ r.w.mem 7 = 9 ∧
      r.w.trace = [] ++ [HostCall.epicsMutexMustLock 1] ++ [HostCall.dbFastGetConvert 6 6]
        ++ (if (0 : Int) ≠ 0 then
              [HostCall.recGblSetSevr AlarmStat.WRITE_ALARM AlarmSevr.INVALID_ALARM]
            else [HostCall.epicsEventSignal 2])
        ++ [HostCall.epicsMutexUnlock 1]) :=
  devGenVarPut_status hostCopy (worldOf (some 1) (some 2) 5)
    (recOf (some (pvtRVAL 0)) 0 9 0) (pvtRVAL 0) FieldRef.RVAL 0 9
    rfl rfl (by decide) (by decide) rfl

/-! ## Output bind (C9, C10) -/

/-- A bind that returns 0 has found the entry, allocated the binding on
`prec->dpvt` with the slot `h->gv + card`, resolved the field address, set
the support flag exactly when `rawFldOff` is not negative, and made no
host call other than `free(nm)`. -/
theorem devGenVarInitRec_success (host : Host) (w : World) (l : DBLINK) (prec : dbRecord)
    (fldOff rawFldOff : Int) (hnz : host.codesNonZero)
    (hs : (devGenVarInitRec host w l prec fldOff rawFldOff).status = 0) :
    ∃ h p, findEntry w l.value.parm = some h ∧
      (devGenVarInitRec host w l prec fldOff rawFldOff).prec
        = { prec with dpvt := some p } ∧
      p.gv = h.gv + l.value.card ∧
      (p.flags &&& FLG_NCSUP ≠ 0 ↔ rawFldOff ≥ 0) ∧
      (devGenVarInitRec host w l prec fldOff rawFldOff).w = (w.alloc.alloc).log .free := by
  obtain ⟨n1, n2, n3, n4, n5, n6⟩ := hnz
  unfold devGenVarInitRec at hs ⊢
  by_cases ht : l.type = LinkType.VME_IO_LINK
  swap
  · simp [ht] at hs; exact absurd hs n1
  simp only [ht, ne_eq, not_true_eq_false, if_false] at hs ⊢
  cases hfind : findEntry w l.value.parm with
  | none => simp [hfind] at hs; exact absurd hs n2
  | some h =>
    simp only [hfind] at hs ⊢
    by_cases hc : l.value.card ≥ h.n_entries
    · simp [hc] at hs; exact absurd hs n3
    simp only [hc, if_false] at hs ⊢
    by_cases hm : host.mallocOk w.nalloc = true
    swap
    · simp [hm] at hs; exact absurd hs n4
    simp only [hm, Bool.not_true, Bool.false_eq_true, if_false] at hs ⊢
    have hflags : ((if rawFldOff ≥ 0 ∧ ¬ l.value.signal = 0 then
            (if rawFldOff ≥ 0 then 0 ||| FLG_NCSUP else 0) ||| FLG_NCONV
          else if rawFldOff ≥ 0 then 0 ||| FLG_NCSUP else 0) &&& FLG_NCSUP ≠ 0
        ↔ rawFldOff ≥ 0) := by
      by_cases hr : rawFldOff ≥ 0
      · by_cases hsig : l.value.signal = 0
        · simp only [hr, hsig, not_true_eq_false, and_false, if_false, if_true, iff_true]
          decide
        · simp only [hr, hsig, not_false_eq_true, and_self, if_true, iff_true]
          decide
      · simp [hr]
    generalize (if rawFldOff ≥ 0 ∧ ¬ l.value.signal = 0 then
            (if rawFldOff ≥ 0 then 0 ||| FLG_NCSUP else 0) ||| FLG_NCONV
          else if rawFldOff ≥ 0 then 0 ||| FLG_NCSUP else 0) = fl at hs hflags ⊢
    generalize (if rawFldOff ≥ 0 ∧ ¬ l.value.signal = 0 then rawFldOff else fldOff) = fo at hs ⊢
    by_cases hfo : fo ≥ prec.rdes.no_fields
    · simp [hfo] at hs; exact absurd hs n5
    simp only [hfo, if_false] at hs ⊢
    simp only [World.alloc_nalloc] at hs ⊢
    by_cases hm2 : host.mallocOk (w.nalloc + 1) = true
    swap
    · simp [hm2] at hs; exact absurd hs n4
    simp only [hm2, Bool.not_true, Bool.false_eq_true, if_false] at hs ⊢
    by_cases ha : (host.dbNameToAddr (prec.name ++ "." ++
        if fo < 0 then prec.rdes.pvalFldDes else prec.rdes.papFldDes fo.toNat)).1 = 0
    swap
    · simp [ha] at hs; exact absurd hs n6
    simp only [ha, not_true_eq_false, if_false] at hs ⊢
    refine ⟨h, { gv := h.gv + l.value.card, flags := fl, dbaddr := (host.dbNameToAddr
      (prec.name ++ "." ++
        if fo < 0 then prec.rdes.pvalFldDes else prec.rdes.papFldDes fo.toNat)).2 },
      rfl, ?_, rfl, hflags, ?_⟩
    · unfold devGenVarInitRec_bail
      simp
    · unfold devGenVarInitRec_bail
      simp

/-- C9, counterexample: a longout record with `pini` set is bound to
"testL" card 0 by `init_rec_lo`, which passes the raw field offset -1.
The base bind succeeds, and `devGenVarInitOutRec` and `init_rec_lo` return
0, not 2. -/
theorem devGenVarInitOutRec_pini_counterexample :
    (recOf none 0 0 1).pini ≠ 0 ∧
    (devGenVarInitRec hostCopy worldTest (vmeLink 0 0 (some "testL"))
      (recOf none 0 0 1) (-1) (-1)).status = 0 ∧
    (devGenVarInitOutRec hostCopy worldTest (vmeLink 0 0 (some "testL"))
      (recOf none 0 0 1) (-1) (-1)).map (fun r => r.status) = some 0 ∧
    (init_rec_lo hostCopy worldTest (vmeLink 0 0 (some "testL"))
      (recOf none 0 0 1)).map (fun r => r.status) = some 0 := by
  refine ⟨by decide, by decide, by decide, by decide⟩

/-- C9, amended: output bind with initial write. For a record with `pini`
set whose base bind succeeds, `devGenVarInitOutRec` performs no get: it
makes no host call beyond those of the base bind (whose only one is
`free(nm)`), writes no data cell, and changes nothing in the record but
`dpvt`. It returns 2 when the raw field offset the adapter passed is not
negative, and 0 when it is negative. -/
theorem devGenVarInitOutRec_pini (host : Host) (w : World) (l : DBLINK) (prec : dbRecord)
    (fldOff rawFldOff : Int) (hnz : host.codesNonZero)
    (hpini : prec.pini ≠ 0)
    (hs : (devGenVarInitRec host w l prec fldOff rawFldOff).status = 0) :
    ∃ r p, devGenVarInitOutRec host w l prec fldOff rawFldOff = some r ∧
      r.status = (if rawFldOff ≥ 0 then 2 else 0) ∧
      r.w = (devGenVarInitRec host w l prec fldOff rawFldOff).w ∧
      r.w.trace = w.trace ++ [HostCall.free] ∧
      r.w.mem = w.mem ∧
      r.prec = { prec with dpvt := some p } := by
  obtain ⟨h, p, _, hprec, _, hflags, hw⟩ :=
    devGenVarInitRec_success host w l prec fldOff rawFldOff hnz hs
  have hd : (devGenVarInitRec host w l prec fldOff rawFldOff).prec.dpvt = some p := by
    rw [hprec]
  have hp : (devGenVarInitRec host w l prec fldOff rawFldOff).prec.pini ≠ 0 := by
    rw [hprec]; exact hpini
  unfold devGenVarInitOutRec
  simp only [hs, ne_eq, not_true_eq_false, if_false, hp, not_false_eq_true, if_true, hd]
  by_cases hr : rawFldOff ≥ 0
  · have hf : ¬ (p.flags &&& FLG_NCSUP = 0) := hflags.mpr hr
    simp only [hf, not_false_eq_true, if_true, hr]
    exact ⟨_, p, rfl, rfl, rfl, by rw [hw]; rfl, by rw [hw]; rfl, hprec⟩
  · have hf : p.flags &&& FLG_NCSUP = 0 := by
      by_contra hcon
      exact hr (hflags.mp hcon)
    simp only [hf, not_true_eq_false, if_false, hr]
    exact ⟨_, p, rfl, hs, rfl, by rw [hw]; rfl, by rw [hw]; rfl, hprec⟩

/-- Witness for C9: an ao-like bind with raw field offset 0 and `pini` set
returns 2. -/
theorem devGenVarInitOutRec_pini_witness :
    ∃ r p, devGenVarInitOutRec hostCopy worldTest (vmeLink 0 0 (some "testL"))
        (recOf none 0 0 1) 1 0 = some r ∧
      r.status = (if (0 : Int) ≥ 0 then 2 else 0) ∧
      r.w = (devGenVarInitRec hostCopy worldTest (vmeLink 0 0 (some "testL"))
        (recOf none 0 0 1) 1 0).w ∧
      r.w.trace = worldTest.trace ++ [HostCall.free] ∧
      r.w.mem = worldTest.mem ∧
      r.prec = { (recOf none 0 0 1) with dpvt := some p } :=
  devGenVarInitOutRec_pini hostCopy worldTest (vmeLink 0 0 (some "testL")) (recOf none 0 0 1) 1 0
    (by decide) (by decide) (by decide)

/-- For a record with `pini` clear whose base bind succeeds,
`devGenVarInitOutRec` performs one `devGenVarGet` and returns its status;
it calls `recGblResetAlarms` exactly when that status is not negative. -/
theorem devGenVarInitOutRec_get (host : Host) (w : World) (l : DBLINK) (prec : dbRecord)
    (fldOff rawFldOff : Int) (hnz : host.codesNonZero)
    (hpini : prec.pini = 0)
    (hs : (devGenVarInitRec host w l prec fldOff rawFldOff).status = 0) :
    devGenVarInitOutRec host w l prec fldOff rawFldOff =
      match devGenVarGet host (devGenVarInitRec host w l prec fldOff rawFldOff).w
          (devGenVarInitRec host w l prec fldOff rawFldOff).prec with
      | none => none
      | some g =>
        if g.status ≥ 0 then some { g with w := g.w.log .recGblResetAlarms } else some g := by
  obtain ⟨h, p, _, hprec, _, _, _⟩ :=
    devGenVarInitRec_success host w l prec fldOff rawFldOff hnz hs
  have hp : (devGenVarInitRec host w l prec fldOff rawFldOff).prec.pini = 0 := by
    rw [hprec]; exact hpini
  unfold devGenVarInitOutRec
  simp only [hs, ne_eq, not_true_eq_false, if_false, hp]

/-- C10, at the failing input: a record with `pini` clear is bound to
"testL" card 0 and the converter of the immediate get fails with the
positive status 1. `devGenVarGet` raises the read-alarm at INVALID severity
and returns 1; as 1 is not negative, `devGenVarInitOutRec` then calls
`recGblResetAlarms` although the read did not succeed. With the negative
status -1 it does not. -/
theorem devGenVarInitOutRec_reset_after_failed_get :
    (devGenVarInitRec (hostFail 1) worldTest (vmeLink 0 0 (some "testL"))
      (recOf none 0 0 0) 1 (-1)).status = 0 ∧
    (devGenVarInitOutRec (hostFail 1) worldTest (vmeLink 0 0 (some "testL"))
      (recOf none 0 0 0) 1 (-1)).map (fun r => (r.status, r.w.trace))
      = some (1, [HostCall.free, HostCall.epicsMutexMustLock 31, HostCall.dbFastPutConvert 5 6,
          HostCall.recGblSetSevr AlarmStat.READ_ALARM AlarmSevr.INVALID_ALARM,
          HostCall.epicsMutexUnlock 31, HostCall.recGblResetAlarms]) ∧
    (devGenVarInitOutRec (hostFail (-1)) worldTest (vmeLink 0 0 (some "testL"))
      (recOf none 0 0 0) 1 (-1)).map (fun r => (r.status, r.w.trace))
      = some (-1, [HostCall.free, HostCall.epicsMutexMustLock 31, HostCall.dbFastPutConvert 5 6,
          HostCall.recGblSetSevr AlarmStat.READ_ALARM AlarmSevr.INVALID_ALARM,
          HostCall.epicsMutexUnlock 31]) := by
  refine ⟨by decide, by decide, by decide⟩

/-! ## Frames of the unlocked operations -/

theorem World.sameData_log (w w' : World) (c c' : HostCall) (h : w.sameData w') :
    (w.log c).sameData (w'.log c') := h

theorem World.sameData_store (w w' : World) (a v : Nat) (h : w.sameData w') :
    (w.store a v).sameData (w'.store a v) := by
  refine ⟨?_, h.2⟩
  simp only [World.store_mem, h.1]

theorem typesOutOfRange_sameData (host : Host) (w w' : World) (p : DevGenVarPvtRec)
    (h : w.sameData w') : typesOutOfRange host w' p ↔ typesOutOfRange host w p := by
  unfold typesOutOfRange
  rw [(h.2 p.gv).2.1]

/-- Readback on a bound record whose range check fails or whose field
address is not null: it returns, its host calls are no lock calls, it
writes no data cell and leaves the binding alone, and its status and
record are the same in every state holding the same data. -/
theorem devGenVarReadback_nolock_frame (host : Host) (w : World) (prec : dbRecord)
    (p : DevGenVarPvtRec) (hb : prec.dpvt = some p)
    (hdef : typesOutOfRange host w p ∨ p.dbaddr.pfield ≠ none) :
    ∃ r d, devGenVarReadback_nolock host w prec = some r ∧
      r.w.trace = w.trace ++ d ∧ (∀ c ∈ d, c.isLockCall = false) ∧
      r.w.gvMem = w.gvMem ∧ r.w.mem = w.mem ∧ r.prec.dpvt = prec.dpvt ∧
      (∀ w', w.sameData w' → ∃ r', devGenVarReadback_nolock host w' prec = some r' ∧
        r'.status = r.status ∧ r'.prec = r.prec ∧ r.w.sameData r'.w) := by
  by_cases ho : typesOutOfRange host w p
  · refine ⟨_, [], (nolock_outOfRange host w prec p hb ho).2.1, by simp, by simp, rfl, rfl, rfl, ?_⟩
    intro w' hs
    have ho' : typesOutOfRange host w' p := (typesOutOfRange_sameData host w w' p hs).mpr ho
    exact ⟨_, (nolock_outOfRange host w' prec p hb ho').2.1, rfl, rfl, hs⟩
  · have hpf : p.dbaddr.pfield ≠ none := hdef.resolve_left ho
    obtain ⟨f, hf⟩ := Option.ne_none_iff_exists'.mp hpf
    have h12 : toUShort p.dbaddr.field_type ≤ host.DBF_DEVICE
        ∧ toUShort (w.gvMem p.gv).dbr_t ≤ host.DBR_ENUM := by
      unfold typesOutOfRange at ho; omega
    have hR := devGenVarReadback_nolock_inRange host w prec p f hb hf h12.1 h12.2
    have hsim : ∀ w', w.sameData w' → devGenVarReadback_nolock host w' prec =
        (let c := host.dbFastPutConvertRoutine (toUShort (w.gvMem p.gv).dbr_t)
            (toUShort p.dbaddr.field_type) (w.mem (w.gvMem p.gv).data_p) (prec.getField f) p.dbaddr
         let w1 := w'.log (.dbFastPutConvert (toUShort (w.gvMem p.gv).dbr_t)
            (toUShort p.dbaddr.field_type))
         if c.1 ≠ 0 then
           some { status := c.1,
                  w := (w1.log (.recGblRecordError c.1 "Unable to read current value back")).log
                    (.recGblSetSevr .READ_ALARM .MAJOR_ALARM),
                  prec := prec.setField f c.2 }
         else some { status := c.1, w := w1, prec := prec.setField f c.2 }) := by
      intro w' hs
      have h2' : toUShort (w'.gvMem p.gv).dbr_t ≤ host.DBR_ENUM := by
        rw [← (hs.2 p.gv).2.1]; exact h12.2
      have hR' := devGenVarReadback_nolock_inRange host w' prec p f hb hf h12.1 h2'
      rw [← (hs.2 p.gv).2.1, ← (hs.2 p.gv).1, ← hs.1] at hR'
      exact hR'
    by_cases hc : (host.dbFastPutConvertRoutine (toUShort (w.gvMem p.gv).dbr_t)
        (toUShort p.dbaddr.field_type) (w.mem (w.gvMem p.gv).data_p) (prec.getField f)
        p.dbaddr).1 = 0
    · simp only [hc, ne_eq, not_true_eq_false, if_false] at hR hsim
      refine ⟨_, _, hR, rfl, ?_, rfl, rfl, by simp [hb], ?_⟩
      · intro c hcm
        simp only [List.mem_singleton] at hcm
        rw [hcm]; rfl
      · intro w' hs
        exact ⟨_, hsim w' hs, rfl, rfl, hs⟩
    · simp only [hc, ne_eq, not_false_eq_true, if_true] at hR hsim
      refine ⟨_, [HostCall.dbFastPutConvert (toUShort (w.gvMem p.gv).dbr_t)
          (toUShort p.dbaddr.field_type),
        HostCall.recGblRecordError (host.dbFastPutConvertRoutine (toUShort (w.gvMem p.gv).dbr_t)
          (toUShort p.dbaddr.field_type) (w.mem (w.gvMem p.gv).data_p) (prec.getField f)
          p.dbaddr).1 "Unable to read current value back",
        HostCall.recGblSetSevr AlarmStat.READ_ALARM AlarmSevr.MAJOR_ALARM],
        hR, by simp, ?_, rfl, rfl, by simp [hb], ?_⟩
      · intro c hcm
        simp only [List.mem_cons, List.mem_singleton, List.not_mem_nil, or_false] at hcm
        rcases hcm with h | h | h <;> rw [h] <;> rfl
      · intro w' hs
        exact ⟨_, hsim w' hs, rfl, rfl, hs⟩

/-- Get on a bound record whose range check fails or whose field address
is not null: it returns, its host calls are no lock calls, it writes no
data cell and leaves the binding alone, and its status and record are the
same in every state holding the same data. -/
theorem devGenVarGet_nolock_frame (host : Host) (w : World) (prec : dbRecord)
    (p : DevGenVarPvtRec) (hb : prec.dpvt = some p)
    (hdef : typesOutOfRange host w p ∨ p.dbaddr.pfield ≠ none) :
    ∃ r d, devGenVarGet_nolock host w prec = some r ∧
      r.w.trace = w.trace ++ d ∧ (∀ c ∈ d, c.isLockCall = false) ∧
      r.w.gvMem = w.gvMem ∧ r.w.mem = w.mem ∧ r.prec.dpvt = prec.dpvt ∧
      (∀ w', w.sameData w' → ∃ r', devGenVarGet_nolock host w' prec = some r' ∧
        r'.status = r.status ∧ r'.prec = r.prec ∧ r.w.sameData r'.w) := by
  by_cases ho : typesOutOfRange host w p
  · refine ⟨_, [], (nolock_outOfRange host w prec p hb ho).1, by simp, by simp, rfl, rfl, rfl, ?_⟩
    intro w' hs
    have ho' : typesOutOfRange host w' p := (typesOutOfRange_sameData host w w' p hs).mpr ho
    exact ⟨_, (nolock_outOfRange host w' prec p hb ho').1, rfl, rfl, hs⟩
  · have hpf : p.dbaddr.pfield ≠ none := hdef.resolve_left ho
    obtain ⟨f, hf⟩ := Option.ne_none_iff_exists'.mp hpf
    have h12 : toUShort p.dbaddr.field_type ≤ host.DBF_DEVICE
        ∧ toUShort (w.gvMem p.gv).dbr_t ≤ host.DBR_ENUM := by
      unfold typesOutOfRange at ho; omega
    have hR := devGenVarGet_nolock_inRange host w prec p f hb hf h12.1 h12.2
    have hsim : ∀ w', w.sameData w' → devGenVarGet_nolock host w' prec =
        (let c := host.dbFastPutConvertRoutine (toUShort (w.gvMem p.gv).dbr_t)
            (toUShort p.dbaddr.field_type) (w.mem (w.gvMem p.gv).data_p) (prec.getField f) p.dbaddr
         let w1 := w'.log (.dbFastPutConvert (toUShort (w.gvMem p.gv).dbr_t)
            (toUShort p.dbaddr.field_type))
         if c.1 ≠ 0 then
           some { status := c.1, w := w1.log (.recGblSetSevr .READ_ALARM .INVALID_ALARM),
                  prec := prec.setField f c.2 }
         else if p.flags &&& FLG_NCONV ≠ 0 then
           some { status := 2, w := w1, prec := { (prec.setField f c.2) with udf := false } }
         else some { status := c.1, w := w1, prec := prec.setField f c.2 }) := by
      intro w' hs
      have h2' : toUShort (w'.gvMem p.gv).dbr_t ≤ host.DBR_ENUM := by
        rw [← (hs.2 p.gv).2.1]; exact h12.2
      have hR' := devGenVarGet_nolock_inRange host w' prec p f hb hf h12.1 h2'
      rw [← (hs.2 p.gv).2.1, ← (hs.2 p.gv).1, ← hs.1] at hR'
      exact hR'
    have hlock1 : ∀ c ∈ [HostCall.dbFastPutConvert (toUShort (w.gvMem p.gv).dbr_t)
        (toUShort p.dbaddr.field_type)], c.isLockCall = false := by
      intro c hcm
      simp only [List.mem_singleton] at hcm
      rw [hcm]; rfl
    by_cases hc : (host.dbFastPutConvertRoutine (toUShort (w.gvMem p.gv).dbr_t)
        (toUShort p.dbaddr.field_type) (w.mem (w.gvMem p.gv).data_p) (prec.getField f)
        p.dbaddr).1 = 0
    · by_cases hn : p.flags &&& FLG_NCONV = 0
      · simp only [hc, ne_eq, not_true_eq_false, if_false, hn] at hR hsim
        refine ⟨_, _, hR, rfl, hlock1, rfl, rfl, by simp [hb], ?_⟩
        intro w' hs
        exact ⟨_, hsim w' hs, rfl, rfl, hs⟩
      · simp only [hc, ne_eq, not_true_eq_false, if_false, hn, not_false_eq_true, if_true]
          at hR hsim
        refine ⟨_, _, hR, rfl, hlock1, rfl, rfl, by simp [hb], ?_⟩
        intro w' hs
        exact ⟨_, hsim w' hs, rfl, rfl, hs⟩
    · simp only [hc, ne_eq, not_false_eq_true, if_true] at hR hsim
      refine ⟨_, [HostCall.dbFastPutConvert (toUShort (w.gvMem p.gv).dbr_t)
          (toUShort p.dbaddr.field_type),
        HostCall.recGblSetSevr AlarmStat.READ_ALARM AlarmSevr.INVALID_ALARM],
        hR, by simp, ?_, rfl, rfl, by simp [hb], ?_⟩
      · intro c hcm
        simp only [List.mem_cons, List.mem_singleton, List.not_mem_nil, or_false] at hcm
        rcases hcm with h | h <;> rw [h] <;> rfl
      · intro w' hs
        exact ⟨_, hsim w' hs, rfl, rfl, hs⟩

/-- Put on a bound record whose range check fails or whose field address
is not null: it returns, its host calls are no lock calls, it leaves the
record alone, and its status and the data it leaves are the same in every
state holding the same data. -/
theorem devGenVarPut_nolock_frame (host : Host) (w : World) (prec : dbRecord)
    (p : DevGenVarPvtRec) (hb : prec.dpvt = some p)
    (hdef : typesOutOfRange host w p ∨ p.dbaddr.pfield ≠ none) :
    ∃ r d, devGenVarPut_nolock host w prec = some r ∧
      r.w.trace = w.trace ++ d ∧ (∀ c ∈ d, c.isLockCall = false) ∧
      r.w.gvMem = w.gvMem ∧ r.prec = prec ∧
      (∀ w', w.sameData w' → ∃ r', devGenVarPut_nolock host w' prec = some r' ∧
        r'.status = r.status ∧ r'.prec = r.prec ∧ r.w.sameData r'.w) := by
  by_cases ho : typesOutOfRange host w p
  · refine ⟨_, [], (nolock_outOfRange host w prec p hb ho).2.2, by simp, by simp, rfl, rfl, ?_⟩
    intro w' hs
    have ho' : typesOutOfRange host w' p := (typesOutOfRange_sameData host w w' p hs).mpr ho
    exact ⟨_, (nolock_outOfRange host w' prec p hb ho').2.2, rfl, rfl, hs⟩
  · have hpf : p.dbaddr.pfield ≠ none := hdef.resolve_left ho
    obtain ⟨f, hf⟩ := Option.ne_none_iff_exists'.mp hpf
    have h12 : toUShort p.dbaddr.field_type ≤ host.DBF_DEVICE
        ∧ toUShort (w.gvMem p.gv).dbr_t ≤ host.DBR_ENUM := by
      unfold typesOutOfRange at ho; omega
    have hR := devGenVarPut_nolock_inRange host w prec p f hb hf h12.1 h12.2
    have hsim : ∀ w', w.sameData w' → devGenVarPut_nolock host w' prec =
        (let c := host.dbFastGetConvertRoutine (toUShort p.dbaddr.field_type)
            (toUShort (w.gvMem p.gv).dbr_t) (prec.getField f) (w.mem (w.gvMem p.gv).data_p) p.dbaddr
         let w1 := (w'.log (.dbFastGetConvert (toUShort p.dbaddr.field_type)
            (toUShort (w.gvMem p.gv).dbr_t))).store (w.gvMem p.gv).data_p c.2
         if c.1 ≠ 0 then
           some { status := c.1, w := w1.log (.recGblSetSevr .WRITE_ALARM .INVALID_ALARM),
                  prec := prec }
         else
           match (w.gvMem p.gv).evt with
           | some e => some { status := c.1, w := w1.log (.epicsEventSignal e), prec := prec }
           | none => some { status := c.1, w := w1, prec := prec }) := by
      intro w' hs
      have h2' : toUShort (w'.gvMem p.gv).dbr_t ≤ host.DBR_ENUM := by
        rw [← (hs.2 p.gv).2.1]; exact h12.2
      have hR' := devGenVarPut_nolock_inRange host w' prec p f hb hf h12.1 h2'
      rw [← (hs.2 p.gv).2.1, ← (hs.2 p.gv).1, ← hs.1, ← (hs.2 p.gv).2.2.1] at hR'
      exact hR'
    by_cases hc : (host.dbFastGetConvertRoutine (toUShort p.dbaddr.field_type)
        (toUShort (w.gvMem p.gv).dbr_t) (prec.getField f) (w.mem (w.gvMem p.gv).data_p)
        p.dbaddr).1 = 0
    · simp only [hc, ne_eq, not_true_eq_false, if_false] at hR hsim
      cases he : (w.gvMem p.gv).evt with
      | none =>
        simp only [he] at hR hsim
        refine ⟨_, [HostCall.dbFastGetConvert (toUShort p.dbaddr.field_type)
          (toUShort (w.gvMem p.gv).dbr_t)], hR, by simp, ?_, rfl, rfl, ?_⟩
        · intro c hcm
          simp only [List.mem_singleton] at hcm
          rw [hcm]; rfl
        · intro w' hs
          exact ⟨_, hsim w' hs, rfl, rfl,
            World.sameData_store _ _ _ _ (World.sameData_log _ _ _ _ hs)⟩
      | some e =>
        simp only [he] at hR hsim
        refine ⟨_, [HostCall.dbFastGetConvert (toUShort p.dbaddr.field_type)
          (toUShort (w.gvMem p.gv).dbr_t), HostCall.epicsEventSignal e], hR, by simp, ?_,
          rfl, rfl, ?_⟩
        · intro c hcm
          simp only [List.mem_cons, List.mem_singleton, List.not_mem_nil, or_false] at hcm
          rcases hcm with h | h <;> rw [h] <;> rfl
        · intro w' hs
          exact ⟨_, hsim w' hs, rfl, rfl, World.sameData_log _ _ _ _
            (World.sameData_store _ _ _ _ (World.sameData_log _ _ _ _ hs))⟩
    · simp only [hc, ne_eq, not_false_eq_true, if_true] at hR hsim
      refine ⟨_, [HostCall.dbFastGetConvert (toUShort p.dbaddr.field_type)
          (toUShort (w.gvMem p.gv).dbr_t),
        HostCall.recGblSetSevr AlarmStat.WRITE_ALARM AlarmSevr.INVALID_ALARM],
        hR, by simp, ?_, rfl, rfl, ?_⟩
      · intro c hcm
        simp only [List.mem_cons, List.mem_singleton, List.not_mem_nil, or_false] at hcm
        rcases hcm with h | h <;> rw [h] <;> rfl
      · intro w' hs
        exact ⟨_, hsim w' hs, rfl, rfl, World.sameData_log _ _ _ _
          (World.sameData_store _ _ _ _ (World.sameData_log _ _ _ _ hs))⟩

/-! ## Lock state along a trace -/

theorem lockRun_append (s : Nat → Nat) (a b : List HostCall) :
    lockRun s (a ++ b) = lockRun (lockRun s a) b := by
  unfold lockRun
  rw [List.foldl_append]

/-- Host calls that are no lock calls leave the lock state as it is. -/
theorem lockRun_noLock (t : List HostCall) (s : Nat → Nat)
    (h : ∀ c ∈ t, c.isLockCall = false) : lockRun s t = s := by
  induction t generalizing s with
  | nil => rfl
  | cons c t ih =>
    have hc : c.isLockCall = false := h c (List.mem_cons_self c t)
    have ht : ∀ d ∈ t, d.isLockCall = false := fun d hd => h d (List.mem_cons_of_mem c hd)
    have hstep : lockStep s c = s := by
      cases c <;> first | rfl | simp [HostCall.isLockCall] at hc
    show lockRun (lockStep s c) t = s
    rw [hstep]
    exact ih s ht

/-- Lock, then calls that are no lock calls, then unlock: the lock state
is back where it was. -/
theorem lockRun_bracket (mtx : Option Nat) (mid : List HostCall) (s : Nat → Nat)
    (h : ∀ c ∈ mid, c.isLockCall = false) :
    lockRun s (lockCalls mtx ++ mid ++ unlockCalls mtx) = s := by
  rw [lockRun_append, lockRun_append, lockRun_noLock mid _ h]
  cases mtx with
  | none => rfl
  | some m =>
    funext k
    show (if k = m then (if k = m then s k + 1 else s k) - 1 else (if k = m then s k + 1 else s k))
      = s k
    by_cases hk : k = m <;> simp [hk]

/-- After the lock and any calls that are no lock calls, the mutex is held
once more than before. -/
theorem lockRun_held (m : Nat) (pre : List HostCall) (s : Nat → Nat)
    (h : ∀ c ∈ pre, c.isLockCall = false) :
    lockRun s (lockCalls (some m) ++ pre) m = s m + 1 := by
  rw [lockRun_append, lockRun_noLock pre _ h]
  show (if m = m then s m + 1 else s m) = s m + 1
  simp

theorem devGenVarLock_trace (w : World) (gv : DevGenVarRec) :
    (devGenVarLock w gv).trace = w.trace ++ lockCalls gv.mtx := by
  unfold devGenVarLock lockCalls
  cases gv.mtx <;> simp

theorem devGenVarUnlock_trace (w : World) (gv : DevGenVarRec) :
    (devGenVarUnlock w gv).trace = w.trace ++ unlockCalls gv.mtx := by
  unfold devGenVarUnlock unlockCalls
  cases gv.mtx <;> simp

theorem devGenVarLock_sameData (w w' : World) (gv gv' : DevGenVarRec) (h : w.sameData w') :
    (devGenVarLock w gv).sameData (devGenVarLock w' gv') := by
  unfold devGenVarLock
  cases gv.mtx <;> cases gv'.mtx <;> exact h

theorem devGenVarUnlock_sameData (w w' : World) (gv gv' : DevGenVarRec) (h : w.sameData w') :
    (devGenVarUnlock w gv).sameData (devGenVarUnlock w' gv') := by
  unfold devGenVarUnlock
  cases gv.mtx <;> cases gv'.mtx <;> exact h

/-! ## Masked write abort (C11) -/

/-- C11, counterexample: the record's field type 12 is above `DBF_DEVICE`,
so the readback of `write_mbbo`, and of `write_bo` with the non-zero mask
1, fails in the range check with -1. The write returns -1, puts nothing
(the cell keeps 5, no event is signalled) and releases the mutex, but no
read-alarm is raised: the only host calls are lock and unlock. -/
theorem masked_write_abort_counterexample :
    (devGenVarReadback_nolock hostCopy (worldOf (some 1) (some 2) 5)
        (recOf (some pvtBadField) 1 9 0)).map (fun r => r.status) = some (-1) ∧
    (write_mbbo hostCopy (worldOf (some 1) (some 2) 5)
        (recOf (some pvtBadField) 1 9 0)).map (fun r => (r.status, r.w.trace, r.w.mem 7))
      = some (-1, [HostCall.epicsMutexMustLock 1, HostCall.epicsMutexUnlock 1], 5) ∧
    (write_bo hostCopy (worldOf (some 1) (some 2) 5)
        (recOf (some pvtBadField) 1 9 0)).map (fun r => (r.status, r.w.trace, r.w.mem 7))
      = some (-1, [HostCall.epicsMutexMustLock 1, HostCall.epicsMutexUnlock 1], 5) := by
  refine ⟨by decide, by decide, by decide⟩

/-- C11, amended: masked write abort. On a bound record, when the readback
of `write_mbbo` (and of `write_bo`, if the mask is not 0) fails, the write
returns the readback's status, performs no put (no data cell is written,
no get-converter is called, no event is signalled) and releases the
slot's mutex as its last host call. If the readback failed in the range
check, the status is -1 and no alarm is raised; if its converter failed
with status `st`, the error is reported and a read-alarm at MAJOR severity
is raised. -/
theorem masked_write_abort (host : Host) (w : World) (prec : dbRecord) (p : DevGenVarPvtRec)
    (hb : prec.dpvt = some p) :
    (typesOutOfRange host w p →
      ∃ r, write_mbbo host w prec = some r ∧
        (toUInt32 prec.mask ≠ 0 → write_bo host w prec = some r) ∧
        (devGenVarReadback_nolock host (devGenVarLock w (w.gvMem p.gv)) prec).map
          (fun r0 => r0.status) = some r.status ∧
        r.status = -1 ∧ r.w.mem = w.mem ∧
        r.w.trace = w.trace ++ lockCalls (w.gvMem p.gv).mtx ++ unlockCalls (w.gvMem p.gv).mtx) ∧
    (∀ f st v, ¬ typesOutOfRange host w p → p.dbaddr.pfield = some f →
      host.dbFastPutConvertRoutine (toUShort (w.gvMem p.gv).dbr_t)
        (toUShort p.dbaddr.field_type) (w.mem (w.gvMem p.gv).data_p) (prec.getField f) p.dbaddr
          = (st, v) →
      st ≠ 0 →
      ∃ r, write_mbbo host w prec = some r ∧
        (toUInt32 prec.mask ≠ 0 → write_bo host w prec = some r) ∧
        (devGenVarReadback_nolock host (devGenVarLock w (w.gvMem p.gv)) prec).map
          (fun r0 => r0.status) = some r.status ∧
        r.status = st ∧ r.w.mem = w.mem ∧
        r.w.trace = w.trace ++ lockCalls (w.gvMem p.gv).mtx
          ++ [HostCall.dbFastPutConvert (toUShort (w.gvMem p.gv).dbr_t)
                (toUShort p.dbaddr.field_type),
              HostCall.recGblRecordError st "Unable to read current value back",
              HostCall.recGblSetSevr AlarmStat.READ_ALARM AlarmSevr.MAJOR_ALARM]
          ++ unlockCalls (w.gvMem p.gv).mtx) := by
  refine ⟨?_, ?_⟩
  · intro ho
    have ho0 : typesOutOfRange host (devGenVarLock w (w.gvMem p.gv)) p := by
      unfold typesOutOfRange at ho ⊢
      simpa using ho
    have hR := (nolock_outOfRange host (devGenVarLock w (w.gvMem p.gv)) prec p hb ho0).2.1
    refine ⟨{ status := -1, w := devGenVarUnlock (devGenVarLock w (w.gvMem p.gv)) (w.gvMem p.gv),
              prec := prec }, ?_, ?_, ?_, rfl, by simp, ?_⟩
    · unfold write_mbbo
      simp [hb, hR]
    · intro hm
      unfold write_bo
      simp [hb, hR, hm]
    · rw [hR]; rfl
    · simp [devGenVarUnlock_trace, devGenVarLock_trace]
  · intro f st v ho hf hc hst
    have h12 : toUShort p.dbaddr.field_type ≤ host.DBF_DEVICE
        ∧ toUShort (w.gvMem p.gv).dbr_t ≤ host.DBR_ENUM := by
      unfold typesOutOfRange at ho; omega
    have hR := devGenVarReadback_nolock_inRange host (devGenVarLock w (w.gvMem p.gv)) prec p f
      hb hf h12.1 (by simpa using h12.2)
    simp only [devGenVarLock_gvMem, devGenVarLock_mem, hc, ne_eq, hst, not_false_eq_true,
      if_true] at hR
    refine ⟨{ status := st,
              w := devGenVarUnlock
                ((((devGenVarLock w (w.gvMem p.gv)).log
                  (.dbFastPutConvert (toUShort (w.gvMem p.gv).dbr_t)
                    (toUShort p.dbaddr.field_type))).log
                  (.recGblRecordError st "Unable to read current value back")).log
                  (.recGblSetSevr .READ_ALARM .MAJOR_ALARM)) (w.gvMem p.gv),
              prec := prec.setField f v }, ?_, ?_, ?_, rfl, by simp, ?_⟩
    · unfold write_mbbo
      simp only [hb, hR, hst, if_false]
    · intro hm
      unfold write_bo
      simp only [hb, hm, ne_eq, not_false_eq_true, if_true, hR, hst]
    · rw [hR]; rfl
    · simp [devGenVarUnlock_trace, devGenVarLock_trace]

/-- Witness for C11: a converter failing with status 7 on a slot with
mutex 1 and event 2, mask 1. -/
theorem masked_write_abort_witness :
    ∃ r, write_mbbo (hostFail 7) (worldOf (some 1) (some 2) 5)
        (recOf (some (pvtRVAL 0)) 1 9 0) = some r ∧
      write_bo (hostFail 7) (worldOf (some 1) (some 2) 5)
        (recOf (some (pvtRVAL 0)) 1 9 0) = some r ∧
      r.status = 7 ∧ r.w.mem = (worldOf (some 1) (some 2) 5).mem ∧
      r.w.trace = [] ++ [HostCall.epicsMutexMustLock 1]
        ++ [HostCall.dbFastPutConvert 6 6,
            HostCall.recGblRecordError 7 "Unable to read current value back",
            HostCall.recGblSetSevr AlarmStat.READ_ALARM AlarmSevr.MAJOR_ALARM]
        ++ [HostCall.epicsMutexUnlock 1] := by
  obtain ⟨r, h1, h2, _, h4, h5, h6⟩ := (masked_write_abort (hostFail 7)
    (worldOf (some 1) (some 2) 5) (recOf (some (pvtRVAL 0)) 1 9 0) (pvtRVAL 0) rfl).2
    FieldRef.RVAL 7 9 (by decide) rfl rfl (by decide)
  exact ⟨r, h1, h2 (by decide), h4, h5, h6⟩

/-! ## Lock discipline (C12) -/

theorem typesOutOfRange_gvMem (host : Host) (w w1 : World) (p : DevGenVarPvtRec)
    (h : w1.gvMem = w.gvMem) : typesOutOfRange host w1 p ↔ typesOutOfRange host w p := by
  unfold typesOutOfRange
  rw [h]

theorem framed_get (host : Host) (prec : dbRecord) (p : DevGenVarPvtRec)
    (hb : prec.dpvt = some p) :
    Framed host p (fun w0 => devGenVarGet_nolock host w0 prec) := by
  intro w hdef
  obtain ⟨r, d, h1, h2, h3, h4, _, _, h7⟩ := devGenVarGet_nolock_frame host w prec p hb hdef
  exact ⟨r, d, h1, h2, h3, h4, h7⟩

theorem framed_put (host : Host) (prec : dbRecord) (p : DevGenVarPvtRec)
    (hb : prec.dpvt = some p) :
    Framed host p (fun w0 => devGenVarPut_nolock host w0 prec) := by
  intro w hdef
  obtain ⟨r, d, h1, h2, h3, h4, _, h6⟩ := devGenVarPut_nolock_frame host w prec p hb hdef
  exact ⟨r, d, h1, h2, h3, h4, h6⟩

theorem framed_read (host : Host) (prec : dbRecord) (p : DevGenVarPvtRec)
    (hb : prec.dpvt = some p) :
    Framed host p (read_section host prec) := by
  intro w hdef
  obtain ⟨r, d, h1, h2, h3, h4, _, _, h7⟩ := devGenVarGet_nolock_frame host w prec p hb hdef
  have hres : ∀ (w1 : World) (r1 : Ret), devGenVarGet_nolock host w1 prec = some r1 →
      read_section host prec w1 = some (Ret.mk r1.status r1.w
        (if r1.status ≥ 0 ∧ toUInt32 r1.prec.mask ≠ 0 then
          { r1.prec with rval := toUInt32 r1.prec.rval &&& toUInt32 r1.prec.mask }
        else r1.prec)) := by
    intro w1 r1 h
    unfold read_section
    rw [h]
  refine ⟨_, d, hres w r h1, h2, h3, h4, ?_⟩
  intro w' hs
  obtain ⟨r', g1, g2, g3, g4⟩ := h7 w' hs
  refine ⟨_, hres w' r' g1, g2, ?_, g4⟩
  simp only [g2, g3]

theorem framed_write_bo (host : Host) (prec : dbRecord) (p : DevGenVarPvtRec)
    (hb : prec.dpvt = some p) :
    Framed host p (write_bo_section host prec) := by
  intro w hdef
  by_cases hm : toUInt32 prec.mask ≠ 0
  · have hsec : ∀ (w1 : World) (r1 : Ret), devGenVarReadback_nolock host w1 prec = some r1 →
        write_bo_section host prec w1 =
          (if r1.status ≠ 0 then some r1
           else devGenVarPut_nolock host r1.w
            { r1.prec with rval := (toUInt32 r1.prec.rval &&& not32 r1.prec.mask)
                ||| (toUInt32 prec.rval &&& toUInt32 r1.prec.mask) }) := by
      intro w1 r1 h
      unfold write_bo_section
      simp only [h]
      rw [if_pos hm]
    obtain ⟨r, d, h1, h2, h3, h4, _, h6, h7⟩ :=
      devGenVarReadback_nolock_frame host w prec p hb hdef
    by_cases hst : r.status ≠ 0
    · refine ⟨r, d, by rw [hsec w r h1, if_pos hst], h2, h3, h4, ?_⟩
      intro w' hs
      obtain ⟨r', g1, g2, g3, g4⟩ := h7 w' hs
      have hst' : r'.status ≠ 0 := by rw [g2]; exact hst
      exact ⟨r', by rw [hsec w' r' g1, if_pos hst'], g2, g3, g4⟩
    · have hb2 : ({ r.prec with rval := (toUInt32 r.prec.rval &&& not32 r.prec.mask)
          ||| (toUInt32 prec.rval &&& toUInt32 r.prec.mask) } : dbRecord).dpvt = some p := by
        show r.prec.dpvt = some p
        rw [h6, hb]
      have hdef2 : typesOutOfRange host r.w p ∨ p.dbaddr.pfield ≠ none :=
        hdef.imp (typesOutOfRange_gvMem host w r.w p h4).mpr id
      obtain ⟨q, d2, k1, k2, k3, k4, _, k6⟩ := devGenVarPut_nolock_frame host r.w _ p hb2 hdef2
      refine ⟨q, d ++ d2, by rw [hsec w r h1, if_neg hst]; exact k1, ?_, ?_, by rw [k4, h4], ?_⟩
      · rw [k2, h2, List.append_assoc]
      · intro c hc
        rcases List.mem_append.mp hc with h | h
        · exact h3 c h
        · exact k3 c h
      · intro w' hs
        obtain ⟨r', g1, g2, g3, g4⟩ := h7 w' hs
        have hst' : ¬ r'.status ≠ 0 := by rw [g2]; exact hst
        obtain ⟨q', m1, m2, m3, m4⟩ := k6 r'.w g4
        refine ⟨q', ?_, m2, m3, m4⟩
        rw [hsec w' r' g1, if_neg hst', g3]
        exact m1
  · have hsec : ∀ w1 : World, write_bo_section host prec w1 = devGenVarPut_nolock host w1 prec := by
      intro w1
      unfold write_bo_section
      rw [if_neg hm]
    obtain ⟨q, d, k1, k2, k3, k4, _, k6⟩ := devGenVarPut_nolock_frame host w prec p hb hdef
    refine ⟨q, d, by rw [hsec]; exact k1, k2, k3, k4, ?_⟩
    intro w' hs
    obtain ⟨q', m1, m2, m3, m4⟩ := k6 w' hs
    exact ⟨q', by rw [hsec]; exact m1, m2, m3, m4⟩

theorem framed_write_mbbo (host : Host) (prec : dbRecord) (p : DevGenVarPvtRec)
    (hb : prec.dpvt = some p) :
    Framed host p (write_mbbo_section host prec) := by
  intro w hdef
  have hsec : ∀ (w1 : World) (r1 : Ret), devGenVarReadback_nolock host w1 prec = some r1 →
      write_mbbo_section host prec w1 =
        (if r1.status = 0 then
          devGenVarPut_nolock host r1.w
            { r1.prec with
              rbv := toUInt32 r1.prec.rval
              rval := (toUInt32 r1.prec.rval &&& not32 r1.prec.mask)
                ||| (toUInt32 prec.rval &&& toUInt32 r1.prec.mask) }
         else some r1) := by
    intro w1 r1 h
    unfold write_mbbo_section
    simp only [h]
  obtain ⟨r, d, h1, h2, h3, h4, _, h6, h7⟩ :=
    devGenVarReadback_nolock_frame host w prec p hb hdef
  by_cases hst : r.status = 0
  · have hb2 : ({ r.prec with
          rbv := toUInt32 r.prec.rval
          rval := (toUInt32 r.prec.rval &&& not32 r.prec.mask)
            ||| (toUInt32 prec.rval &&& toUInt32 r.prec.mask) } : dbRecord).dpvt = some p := by
      show r.prec.dpvt = some p
      rw [h6, hb]
    have hdef2 : typesOutOfRange host r.w p ∨ p.dbaddr.pfield ≠ none :=
      hdef.imp (typesOutOfRange_gvMem host w r.w p h4).mpr id
    obtain ⟨q, d2, k1, k2, k3, k4, _, k6⟩ := devGenVarPut_nolock_frame host r.w _ p hb2 hdef2
    refine ⟨q, d ++ d2, by rw [hsec w r h1, if_pos hst]; exact k1, ?_, ?_, by rw [k4, h4], ?_⟩
    · rw [k2, h2, List.append_assoc]
    · intro c hc
      rcases List.mem_append.mp hc with h | h
      · exact h3 c h
      · exact k3 c h
    · intro w' hs
      obtain ⟨r', g1, g2, g3, g4⟩ := h7 w' hs
      have hst' : r'.status = 0 := by rw [g2]; exact hst
      obtain ⟨q', m1, m2, m3, m4⟩ := k6 r'.w g4
      refine ⟨q', ?_, m2, m3, m4⟩
      rw [hsec w' r' g1, if_pos hst', g3]
      exact m1
  · refine ⟨r, d, by rw [hsec w r h1, if_neg hst], h2, h3, h4, ?_⟩
    intro w' hs
    obtain ⟨r', g1, g2, g3, g4⟩ := h7 w' hs
    have hst' : ¬ r'.status = 0 := by rw [g2]; exact hst
    exact ⟨r', by rw [hsec w' r' g1, if_neg hst'], g2, g3, g4⟩

/-- Every access operation on a bound record is its section run between
`devGenVarLock` and `devGenVarUnlock`. -/
theorem AccessOp.run_eq_bracket (op : AccessOp) (host : Host) (w : World) (prec : dbRecord)
    (p : DevGenVarPvtRec) (hb : prec.dpvt = some p) :
    op.run host w prec = bracket p (op.body host prec) w := by
  cases op with
  | Get =>
    unfold AccessOp.run AccessOp.body devGenVarGet bracket devGenVarLock devGenVarUnlock
    simp only [hb]
    cases (w.gvMem p.gv).mtx with
    | none => simp only; cases devGenVarGet_nolock host w prec <;> rfl
    | some m => rfl
  | Put =>
    unfold AccessOp.run AccessOp.body devGenVarPut bracket devGenVarLock devGenVarUnlock
    simp only [hb]
    cases (w.gvMem p.gv).mtx with
    | none => simp only; cases devGenVarPut_nolock host w prec <;> rfl
    | some m => rfl
  | ReadBi =>
    unfold AccessOp.run AccessOp.body read_bi bracket read_section
    simp only [hb]
    cases devGenVarGet_nolock host (devGenVarLock w (w.gvMem p.gv)) prec <;> rfl
  | ReadMbbi =>
    unfold AccessOp.run AccessOp.body read_mbbi bracket read_section
    simp only [hb]
    cases devGenVarGet_nolock host (devGenVarLock w (w.gvMem p.gv)) prec <;> rfl
  | WriteBo =>
    unfold AccessOp.run AccessOp.body write_bo bracket write_bo_section
    simp only [hb]
    by_cases hm : toUInt32 prec.mask ≠ 0
    · simp only [if_pos hm]
      cases devGenVarReadback_nolock host (devGenVarLock w (w.gvMem p.gv)) prec with
      | none => rfl
      | some r =>
        simp only
        by_cases hst : r.status ≠ 0
        · simp only [if_pos hst]
        · simp only [if_neg hst]
    · simp only [if_neg hm]
  | WriteMbbo =>
    unfold AccessOp.run AccessOp.body write_mbbo bracket write_mbbo_section
    simp only [hb]
    cases devGenVarReadback_nolock host (devGenVarLock w (w.gvMem p.gv)) prec with
    | none => rfl
    | some r =>
      simp only
      by_cases hst : r.status = 0
      · simp only [if_pos hst]
      · simp only [if_neg hst]

/-- The section of every access operation is framed. -/
theorem AccessOp.body_framed (op : AccessOp) (host : Host) (prec : dbRecord)
    (p : DevGenVarPvtRec) (hb : prec.dpvt = some p) :
    Framed host p (op.body host prec) := by
  cases op with
  | Get => exact framed_get host prec p hb
  | Put => exact framed_put host prec p hb
  | ReadBi => exact framed_read host prec p hb
  | ReadMbbi => exact framed_read host prec p hb
  | WriteBo => exact framed_write_bo host prec p hb
  | WriteMbbo => exact framed_write_mbbo host prec p hb

/-- A framed section run in a bracket: the trace grows by the lock call,
the section's calls and the unlock call; without a mutex the bracket is
the section itself; and the status, the record and the data are the same
from every state holding the same data, whatever its mutexes. -/
theorem bracket_framed (host : Host) (p : DevGenVarPvtRec) (body : World → Option Ret)
    (w : World) (hF : Framed host p body)
    (hdef : typesOutOfRange host w p ∨ p.dbaddr.pfield ≠ none) :
    ∃ r mid, bracket p body w = some r ∧
      r.w.trace = w.trace ++ lockCalls (w.gvMem p.gv).mtx ++ mid
        ++ unlockCalls (w.gvMem p.gv).mtx ∧
      (∀ c ∈ mid, c.isLockCall = false) ∧
      ((w.gvMem p.gv).mtx = none → bracket p body w = body w) ∧
      (∀ w', w.sameData w' → ∃ r', bracket p body w' = some r' ∧ r'.status = r.status ∧
        r'.prec = r.prec ∧ r.w.sameData r'.w) := by
  have hdef0 : typesOutOfRange host (devGenVarLock w (w.gvMem p.gv)) p
      ∨ p.dbaddr.pfield ≠ none :=
    hdef.imp (typesOutOfRange_gvMem host w _ p (devGenVarLock_gvMem w _)).mpr id
  obtain ⟨r, d, h1, h2, h3, _, h5⟩ := hF _ hdef0
  refine ⟨{ r with w := devGenVarUnlock r.w (w.gvMem p.gv) }, d, ?_, ?_, h3, ?_, ?_⟩
  · unfold bracket
    rw [h1]
  · show (devGenVarUnlock r.w (w.gvMem p.gv)).trace = _
    rw [devGenVarUnlock_trace, h2, devGenVarLock_trace]
  · intro hn
    unfold bracket devGenVarLock devGenVarUnlock
    simp only [hn]
    cases body w <;> rfl
  · intro w' hs
    obtain ⟨r', g1, g2, g3, g4⟩ := h5 (devGenVarLock w' (w'.gvMem p.gv))
      (devGenVarLock_sameData w w' _ _ hs)
    refine ⟨{ r' with w := devGenVarUnlock r'.w (w'.gvMem p.gv) }, ?_, g2, g3, ?_⟩
    · unfold bracket
      rw [g1]
    · exact devGenVarUnlock_sameData _ _ _ _ g4

/-- C12: lock discipline over the lock state `lockRun` computes. For every
access operation (`devGenVarGet`, `devGenVarPut`, `read_bi`, `read_mbbi`,
`write_bo`, `write_mbbo`) on a bound record, whatever the converters
return and whether or not the range check fails, the operation returns
and its host calls are: the lock call of the slot's mutex if it has one,
then calls none of which is a lock or unlock (the converter calls are
among these), then the unlock call if it has a mutex. So the mutex is
locked once and unlocked once, is held during every call in between, and
the lock state on return is the one on entry. Without a mutex there is no
lock or unlock call and the operation is its unlocked section
(`devGenVarGet_nolock` for `devGenVarGet`, `devGenVarPut_nolock` for
`devGenVarPut`). The status, the record and the data cells are the same
from every state holding the same data, whatever the slot's mutex. -/
theorem access_lock_discipline (op : AccessOp) (host : Host) (w : World) (prec : dbRecord)
    (p : DevGenVarPvtRec) (hb : prec.dpvt = some p)
    (hdef : typesOutOfRange host w p ∨ p.dbaddr.pfield ≠ none) :
    ∃ r mid, op.run host w prec = some r ∧
      r.w.trace = w.trace ++ lockCalls (w.gvMem p.gv).mtx ++ mid
        ++ unlockCalls (w.gvMem p.gv).mtx ∧
      (∀ c ∈ mid, c.isLockCall = false) ∧
      (∀ s, lockRun s (lockCalls (w.gvMem p.gv).mtx ++ mid ++ unlockCalls (w.gvMem p.gv).mtx)
        = s) ∧
      (∀ m, (w.gvMem p.gv).mtx = some m →
        (lockCalls (w.gvMem p.gv).mtx ++ mid ++ unlockCalls (w.gvMem p.gv).mtx).count
          (HostCall.epicsMutexMustLock m) = 1 ∧
        (lockCalls (w.gvMem p.gv).mtx ++ mid ++ unlockCalls (w.gvMem p.gv).mtx).count
          (HostCall.epicsMutexUnlock m) = 1 ∧
        ∀ s pre post, mid = pre ++ post →
          lockRun s (lockCalls (w.gvMem p.gv).mtx ++ pre) m = s m + 1) ∧
      ((w.gvMem p.gv).mtx = none →
        r.w.trace = w.trace ++ mid ∧ op.run host w prec = op.body host prec w) ∧
      (∀ w', w.sameData w' → ∃ r', op.run host w' prec = some r' ∧ r'.status = r.status ∧
        r'.prec = r.prec ∧ r'.w.mem = r.w.mem) := by
  obtain ⟨r, mid, h1, h2, h3, h4, h5⟩ :=
    bracket_framed host p (op.body host prec) w (AccessOp.body_framed op host prec p hb) hdef
  have hrun := AccessOp.run_eq_bracket op host w prec p hb
  refine ⟨r, mid, by rw [hrun]; exact h1, h2, h3, ?_, ?_, ?_, ?_⟩
  · intro s
    exact lockRun_bracket _ mid s h3
  · intro m hm
    have hnl : ¬ HostCall.epicsMutexMustLock m ∈ mid := by
      intro hmem
      have := h3 _ hmem
      simp [HostCall.isLockCall] at this
    have hnu : ¬ HostCall.epicsMutexUnlock m ∈ mid := by
      intro hmem
      have := h3 _ hmem
      simp [HostCall.isLockCall] at this
    refine ⟨?_, ?_, ?_⟩
    · rw [hm]
      simp [lockCalls, unlockCalls, List.count_append, List.count_eq_zero_of_not_mem hnl]
    · rw [hm]
      simp [lockCalls, unlockCalls, List.count_append, List.count_eq_zero_of_not_mem hnu]
    · intro s pre post hmid
      rw [hm]
      apply lockRun_held
      intro c hc
      exact h3 c (by rw [hmid]; exact List.mem_append_left post hc)
  · intro hn
    refine ⟨?_, ?_⟩
    · rw [h2, hn]
      simp [lockCalls, unlockCalls]
    · rw [hrun]
      exact h4 hn
  · intro w' hs
    obtain ⟨r', g1, g2, g3, g4⟩ := h5 w' hs
    exact ⟨r', by rw [AccessOp.run_eq_bracket op host w' prec p hb]; exact g1, g2, g3, g4.1.symm⟩

/-- Witness for C12: `write_bo` with mask 1 on a slot with mutex 1 and
event 2, from the empty lock state. -/
theorem access_lock_discipline_witness :
    ∃ r mid, AccessOp.run AccessOp.WriteBo hostCopy (worldOf (some 1) (some 2) 0xFFFFFFFE)
        (recOf (some (pvtRVAL 0)) 1 1 0) = some r ∧
      r.w.trace = [] ++ lockCalls (some 1) ++ mid ++ unlockCalls (some 1) ∧
      (∀ c ∈ mid, c.isLockCall = false) ∧
      lockRun (fun _ => 0) (lockCalls (some 1) ++ mid ++ unlockCalls (some 1)) = (fun _ => 0) ∧
      (lockCalls (some 1) ++ mid ++ unlockCalls (some 1)).count (HostCall.epicsMutexMustLock 1)
        = 1 := by
  obtain ⟨r, mid, h1, h2, h3, h4, h5, _⟩ := access_lock_discipline AccessOp.WriteBo hostCopy
    (worldOf (some 1) (some 2) 0xFFFFFFFE) (recOf (some (pvtRVAL 0)) 1 1 0) (pvtRVAL 0) rfl
    (Or.inr (by decide))
  exact ⟨r, mid, h1, h2, h3, h4 _, (h5 1 rfl).1⟩

/-! ## Slot selection (C13) -/

/-- A bind that returns 0 has used a card below the entry's count: the
upper bound is checked. -/
theorem devGenVarInitRec_success_card (host : Host) (w : World) (l : DBLINK) (prec : dbRecord)
    (fldOff rawFldOff : Int) (hnz : host.codesNonZero)
    (hs : (devGenVarInitRec host w l prec fldOff rawFldOff).status = 0) :
    ∃ h, findEntry w l.value.parm = some h ∧ l.value.card < h.n_entries := by
  obtain ⟨n1, n2, n3, _, _, _⟩ := hnz
  unfold devGenVarInitRec at hs
  by_cases ht : l.type = LinkType.VME_IO_LINK
  swap
  · simp [ht] at hs; exact absurd hs n1
  simp only [ht, ne_eq, not_true_eq_false, if_false] at hs
  cases hfind : findEntry w l.value.parm with
  | none => simp [hfind] at hs; exact absurd hs n2
  | some h =>
    simp only [hfind] at hs
    by_cases hc : l.value.card ≥ h.n_entries
    · simp [hc] at hs; exact absurd hs n3
    · exact ⟨h, rfl, by omega⟩

/-- C13, at the failing input: "testL" is registered with 2 slots at
addresses 100 and 101, and a `VME_IO` link names it with card -1. Only
`card >= n_entries` is tested, so the bind returns 0 and stores the slot
address `100 + (-1) = 99`, which is not an element of the registered
array; with card -32768 it stores `100 - 32768`. -/
theorem devGenVarInitRec_negative_card :
    findEntry worldTest (some "testL") = some { gv := 100, n_entries := 2 } ∧
    (devGenVarInitRec hostCopy worldTest (vmeLink (-1) 0 (some "testL"))
      (recOf none 0 0 0) 1 (-1)).status = 0 ∧
    (devGenVarInitRec hostCopy worldTest (vmeLink (-1) 0 (some "testL"))
      (recOf none 0 0 0) 1 (-1)).prec.dpvt.map (fun p => p.gv) = some 99 ∧
    ¬ (0 ≤ (vmeLink (-1) 0 (some "testL")).value.card) ∧
    ¬ ((100 : Int) ≤ 99 ∧ (99 : Int) < 100 + 2) ∧
    (devGenVarInitRec hostCopy worldTest (vmeLink (-32768) 0 (some "testL"))
      (recOf none 0 0 0) 1 (-1)).status = 0 ∧
    (devGenVarInitRec hostCopy worldTest (vmeLink (-32768) 0 (some "testL"))
      (recOf none 0 0 0) 1 (-1)).prec.dpvt.map (fun p => p.gv) = some (100 - 32768) := by
  refine ⟨by decide, by decide, by decide, by decide, by decide, by decide, by decide⟩

end DevGenVar
